import Mathlib

/-!
Verification of the ska_astro coordinate library.

The source is `Ska/astro.py`: a class `Equatorial` converting between decimal
and sexagesimal equatorial coordinates, and a free function `sph_dist`
computing haversine great-circle distance.

Shallow embedding conventions:
* Python floats are modelled by `ℚ` in the parser and formatter (exact
  arithmetic), and by `ℝ` in the trigonometric distance function.
* Python `%0w.pf` and `%0wd` formatting is modelled by `fmtF` and `fmtD`,
  with decimal rounding modelled by `round` on `ℚ`.
* Python strings are Lean `String`; the argument tokenizer (join with spaces,
  replace any of `,:dhms` by a space, split on whitespace, as in
  `Equatorial.__init__`) is `tokenize`.
* Construction is `equatorialCoordinate : List String → Except ConstructError
  Equatorial`; the `ValueError` raised for a bad token count is the
  `ConstructError.badCount` value carrying the token list, and failed numeric
  conversion of a token is `ConstructError.badParse`.
* `numpy` scalar/array polymorphism of `sph_dist` is modelled by `NpVal`
  with elementwise `map1` / `map2` (numpy ufuncs are elementwise).
-/

/-! ## Digit and string formatting helpers -/

/-- The character for a decimal digit `d < 10`. -/
def digitChar (d : ℕ) : Char := Char.ofNat (48 + d)

/-- Numeric value of a digit character. -/
def digitVal (c : Char) : ℕ := c.toNat - 48

/-- Big-endian decimal digit characters of `n`, with an explicit fuel
argument so that the kernel can evaluate it. -/
def natCharsAux : ℕ → ℕ → List Char
  | 0, _ => []
  | fuel + 1, n => if n = 0 then [] else natCharsAux fuel (n / 10) ++ [digitChar (n % 10)]

/-- Decimal representation of a natural number, as Python `str` renders it
(never empty, `"0"` for zero). -/
def natChars (n : ℕ) : List Char := if n = 0 then ['0'] else natCharsAux (n + 1) n

/-- Left-pad with zeros to width `w`, as `%0wd` formatting does. -/
def zpad (w : ℕ) (cs : List Char) : List Char := List.replicate (w - cs.length) '0' ++ cs

/-- Python `"%0wd" % n` for an integer `n`. -/
def fmtD (w : ℕ) (n : ℤ) : List Char :=
  if n < 0 then '-' :: zpad (w - 1) (natChars n.natAbs) else zpad w (natChars n.natAbs)

/-- Python fixed-point formatting of the scaled integer `n` (the value times
`10 ^ p`), used by `fmtF`. -/
def fmtFInt (w p : ℕ) (n : ℤ) : List Char :=
  let m := n.natAbs
  let body := natChars (m / 10 ^ p) ++ '.' :: zpad p (natChars (m % 10 ^ p))
  if n < 0 then '-' :: zpad (w - 1) body else zpad w body

/-- Python `"%0w.pf" % x`: round to `p` decimal places and zero-pad to total
width `w`. -/
def fmtF (w p : ℕ) (x : ℚ) : List Char := fmtFInt w p (round (x * 10 ^ p))

/-! ## Numeric parsing (Python `int(...)` and `float(...)` on plain decimal
literals) -/

/-- Strip an optional leading sign, returning whether it was `-`. -/
def parseSign (cs : List Char) : Bool × List Char :=
  match cs with
  | [] => (false, [])
  | c :: rest => if c = '-' then (true, rest) else if c = '+' then (false, rest) else (false, c :: rest)

/-- Value of a digit string (assumed to be all digits), most significant
first. -/
def digitsValD (cs : List Char) : ℕ := cs.foldl (fun a c => a * 10 + digitVal c) 0

/-- Whether every character is a decimal digit. -/
def allDigits (cs : List Char) : Bool := cs.all Char.isDigit

/-- Parse a nonempty all-digit string. -/
def digitsVal? (cs : List Char) : Option ℕ :=
  if cs.isEmpty then none else if allDigits cs then some (digitsValD cs) else none

/-- Python `int(s)` on an optionally signed decimal integer literal. -/
def parseInt? (s : String) : Option ℤ :=
  let sc := parseSign s.data
  (digitsVal? sc.2).map (fun n => if sc.1 then -(n : ℤ) else (n : ℤ))

/-- Python `float(s)` on an optionally signed decimal literal with an
optional fractional part. -/
def parseFloat? (s : String) : Option ℚ :=
  let sc := parseSign s.data
  let cs := sc.2
  let ip := cs.takeWhile Char.isDigit
  let rest := cs.dropWhile Char.isDigit
  let mag? : Option ℚ :=
    match rest with
    | [] => if ip.isEmpty then none else some (digitsValD ip : ℚ)
    | '.' :: fp =>
      if allDigits fp && !(ip.isEmpty && fp.isEmpty) then
        some ((digitsValD ip : ℚ) + (digitsValD fp : ℚ) / 10 ^ fp.length)
      else none
    | _ => none
  mag?.map (fun q => if sc.1 then -q else q)

/-! ## Argument tokenization (`Equatorial.__init__` lines 45-47) -/

/-- Python `str.strip()`. -/
def trimChars (cs : List Char) : List Char :=
  ((cs.dropWhile Char.isWhitespace).reverse.dropWhile Char.isWhitespace).reverse

/-- The separator substitution `re.sub(r"[,:dhms]", " ", argstr)`. -/
def subSep (c : Char) : Char := if c ∈ [',', ':', 'd', 'h', 'm', 's'] then ' ' else c

/-- Python `" ".join(str(x).strip() for x in args)` at character level. -/
def joinTokensChars : List String → List Char
  | [] => []
  | [a] => trimChars a.data
  | a :: rest => trimChars a.data ++ ' ' :: joinTokensChars rest

/-- Worker for whitespace splitting, accumulating the current token in
reverse. -/
def splitWsGo (cur : List Char) : List Char → List (List Char)
  | [] => if cur.isEmpty then [] else [cur.reverse]
  | c :: cs =>
    if c.isWhitespace then
      if cur.isEmpty then splitWsGo [] cs else cur.reverse :: splitWsGo [] cs
    else splitWsGo (c :: cur) cs

/-- Python `str.split()` with no argument: split on whitespace runs,
dropping empty pieces. -/
def splitWs (cs : List Char) : List (List Char) := splitWsGo [] cs

/-- The full tokenization performed by `Equatorial.__init__`: join the
stripped arguments with spaces, replace `,:dhms` by spaces, split. -/
def tokenize (args : List String) : List String :=
  (splitWs ((joinTokensChars args).map subSep)).map String.mk

/-! ## The Equatorial data model (`Ska/astro.py` lines 9-121) -/

/-- The attributes stored on an `Equatorial` instance by `__init__`. -/
structure Equatorial where
  ra : ℚ
  dec : ℚ
  ra0 : ℚ
  rah : ℤ
  ram : ℤ
  ras : ℚ
  decsign : String
  decd : ℤ
  decm : ℤ
  decs : ℚ
  delim : String
deriving DecidableEq

/-- The two-value branch of `__init__` (lines 49-62), after `float()`
conversion of the two tokens. -/
def initFromPair (ra_in dec : ℚ) : Equatorial :=
  let ra : ℚ := ra_in - ⌊ra_in / 360⌋ * 360
  let ra15 : ℚ := ra / 15
  let rah : ℤ := ⌊ra15⌋
  let ram : ℤ := ⌊(ra15 - (rah : ℚ)) * 60⌋
  let ras : ℚ := (ra15 - (rah : ℚ) - (ram : ℚ) / 60) * 60 * 60
  let decsign : String := if dec < 0 then "-" else "+"
  let absdec : ℚ := |dec|
  let decd : ℤ := ⌊absdec⌋
  let decm : ℤ := ⌊(absdec - (decd : ℚ)) * 60⌋
  let decs : ℚ := (absdec - (decd : ℚ) - (decm : ℚ) / 60) * 60 * 60
  let ra0 : ℚ := ra - (if ra > 180 then 360 else 0)
  { ra, dec, ra0, rah, ram, ras, decsign, decd, decm, decs, delim := ":" }

/-- The six-value branch of `__init__` (lines 64-77), after numeric
conversion of the tokens; `negSign` is `args[3].startswith("-")`. -/
def initFromSix (rah ram : ℤ) (ras : ℚ) (negSign : Bool) (d3 decm : ℤ) (decs : ℚ) : Equatorial :=
  let decsign : String := if negSign then "-" else "+"
  let decd : ℤ := |d3|
  let ra : ℚ := 15 * ((rah : ℚ) + (ram : ℚ) / 60 + ras / 3600)
  let dec0 : ℚ := |(decd : ℚ)| + (decm : ℚ) / 60 + decs / 3600
  let dec : ℚ := if decsign = "-" then -dec0 else dec0
  let ra0 : ℚ := ra - (if ra > 180 then 360 else 0)
  { ra, dec, ra0, rah, ram, ras, decsign, decd, decm, decs, delim := ":" }

/-- Construction failure: either a wrong token count (the `ValueError`
of line 79, whose message carries the token list) or a failed numeric
conversion of a token. -/
inductive ConstructError where
  | badCount (toks : List String)
  | badParse
deriving DecidableEq

/-- Python `s.startswith("-")`. -/
def startsWithNeg (s : String) : Bool :=
  match s.data with
  | '-' :: _ => true
  | _ => false

/-- `__init__` from the token list: dispatch on the token count, convert
tokens numerically and build the object. -/
def equatorialOfTokens (toks : List String) : Except ConstructError Equatorial :=
  match toks with
  | [a0, a1] =>
    match parseFloat? a0, parseFloat? a1 with
    | some ra, some dec => .ok (initFromPair ra dec)
    | _, _ => .error .badParse
  | [a0, a1, a2, a3, a4, a5] =>
    match parseInt? a0, parseInt? a1, parseFloat? a2, parseInt? a3, parseInt? a4,
        parseFloat? a5 with
    | some rah, some ram, some ras, some d3, some decm, some decs =>
      .ok (initFromSix rah ram ras (startsWithNeg a3) d3 decm decs)
    | _, _, _, _, _, _ => .error .badParse
  | _ => .error (.badCount toks)

/-- The full constructor `Equatorial(*args)`. -/
def equatorialCoordinate (args : List String) : Except ConstructError Equatorial :=
  equatorialOfTokens (tokenize args)

/-- Python `delim.join(parts)` at character level. -/
def joinDelimChars (d : List Char) : List (List Char) → List Char
  | [] => []
  | [a] => a
  | a :: rest => a ++ d ++ joinDelimChars d rest

/-- `Equatorial.get_ra_hms` (lines 88-101): format the seconds, then apply
the cascading rollover corrections on local copies of the minute and hour. -/
def get_ra_hms (e : Equatorial) : String :=
  let s_ras0 := fmtF 6 3 e.ras
  let ram1 : ℤ := if s_ras0 = "60.000".data then e.ram + 1 else e.ram
  let s_ras := if s_ras0 = "60.000".data then "00.000".data else s_ras0
  let s_ram0 := fmtD 2 ram1
  let rah1 : ℤ := if s_ram0 = "60".data then e.rah + 1 else e.rah
  let s_ram := if s_ram0 = "60".data then "00".data else s_ram0
  let s_rah0 := fmtD 2 rah1
  let s_rah := if s_rah0 = "24".data then "00".data else s_rah0
  ⟨joinDelimChars e.delim.data [s_rah, s_ram, s_ras]⟩

/-- `Equatorial.get_dec_dms` (lines 104-115): same rollover scheme with two
decimal places, no wraparound on the degrees, sign prefixed. -/
def get_dec_dms (e : Equatorial) : String :=
  let s_decs0 := fmtF 5 2 e.decs
  let decm1 : ℤ := if s_decs0 = "60.00".data then e.decm + 1 else e.decm
  let s_decs := if s_decs0 = "60.00".data then "00.00".data else s_decs0
  let s_decm0 := fmtD 2 decm1
  let decd1 : ℤ := if s_decm0 = "60".data then e.decd + 1 else e.decd
  let s_decm := if s_decm0 = "60".data then "00".data else s_decm0
  let s_decd := fmtD 2 decd1
  ⟨e.decsign.data ++ joinDelimChars e.delim.data [s_decd, s_decm, s_decs]⟩

/-- State-passing form of `get_ra_hms`: the method body reads `self.ram`,
`self.rah`, `self.ras`, `self.delim` into locals and performs no attribute
assignment, so the post-state equals the pre-state. -/
def get_ra_hms_state (e : Equatorial) : String × Equatorial := (get_ra_hms e, e)

/-- State-passing form of `get_dec_dms`; the method performs no attribute
assignment. -/
def get_dec_dms_state (e : Equatorial) : String × Equatorial := (get_dec_dms e, e)

/-- The post-construction mutation `pos.delim = d` allowed by the class. -/
def setDelim (e : Equatorial) (d : String) : Equatorial := { e with delim := d }

/-- Re-parse the rendered sexagesimal strings of an object as a new
construction (the round-trip operation of the spec). -/
def reparse (e : Equatorial) : Except ConstructError Equatorial :=
  equatorialCoordinate [get_ra_hms e, get_dec_dms e]

/-! ## The spherical distance function (`sph_dist`, lines 123-158) -/

noncomputable section

/-- `np.radians`. -/
def radians (x : ℝ) : ℝ := x * Real.pi / 180

/-- `np.degrees`. -/
def degrees (x : ℝ) : ℝ := x * 180 / Real.pi

/-- The local `haversine` of `sph_dist`. -/
def haversine (t : ℝ) : ℝ := Real.sin (t / 2) ^ 2

/-- The value `h` of line 154. -/
def hRaw (a1 d1 a2 d2 : ℝ) : ℝ :=
  haversine (radians d1 - radians d2) +
    Real.cos (radians d1) * Real.cos (radians d2) * haversine (radians a1 - radians a2)

/-- The clamp of line 155: `np.where(abs(h) > 1.0, np.sign(h), h)` at one
element. -/
def clampH (h : ℝ) : ℝ := if |h| > 1 then Real.sign h else h

/-- Scalar `sph_dist`. -/
def sph_dist (a1 d1 a2 d2 : ℝ) : ℝ :=
  degrees (2 * Real.arcsin (Real.sqrt (clampH (hRaw a1 d1 a2 d2))))

/-- A numpy value: a scalar or a one-dimensional array. -/
inductive NpVal where
  | scalar (x : ℝ)
  | arr (xs : List ℝ)

/-- Elementwise application of a unary numpy ufunc. -/
def NpVal.map1 (f : ℝ → ℝ) : NpVal → NpVal
  | .scalar x => .scalar (f x)
  | .arr xs => .arr (xs.map f)

/-- Elementwise application of a binary numpy ufunc with scalar
broadcasting. -/
def NpVal.map2 (f : ℝ → ℝ → ℝ) : NpVal → NpVal → NpVal
  | .scalar x, .scalar y => .scalar (f x y)
  | .scalar x, .arr ys => .arr (ys.map (fun y => f x y))
  | .arr xs, .scalar y => .arr (xs.map (fun x => f x y))
  | .arr xs, .arr ys => .arr (List.zipWith f xs ys)

/-- Whether a value is an array (`isinstance(x, np.ndarray)`). -/
def NpVal.isArr : NpVal → Bool
  | .scalar _ => false
  | .arr _ => true

/-- `sph_dist` on scalar-or-array arguments, with every numpy operation
applied elementwise exactly as in lines 149-158. -/
def sph_dist_np (a1 d1 a2 d2 : NpVal) : NpVal :=
  let a1r := a1.map1 radians
  let d1r := d1.map1 radians
  let a2r := a2.map1 radians
  let d2r := d2.map1 radians
  let h := NpVal.map2 (fun x y => x + y)
    ((NpVal.map2 (fun x y => x - y) d1r d2r).map1 haversine)
    (NpVal.map2 (fun x y => x * y)
      (NpVal.map2 (fun x y => x * y) (d1r.map1 Real.cos) (d2r.map1 Real.cos))
      ((NpVal.map2 (fun x y => x - y) a1r a2r).map1 haversine))
  let hc := h.map1 clampH
  hc.map1 (fun x => degrees (2 * Real.arcsin (Real.sqrt x)))

end

/-! ## Field equations for the two construction branches -/

@[simp] theorem initFromPair_ra (ra dec : ℚ) :
    (initFromPair ra dec).ra = ra - ⌊ra / 360⌋ * 360 := rfl

@[simp] theorem initFromPair_dec (ra dec : ℚ) : (initFromPair ra dec).dec = dec := rfl

@[simp] theorem initFromPair_ra0 (ra dec : ℚ) :
    (initFromPair ra dec).ra0 =
      ra - ⌊ra / 360⌋ * 360 -
        (if ra - ⌊ra / 360⌋ * 360 > 180 then 360 else 0) := rfl

@[simp] theorem initFromPair_rah (ra dec : ℚ) :
    (initFromPair ra dec).rah = ⌊(ra - ⌊ra / 360⌋ * 360) / 15⌋ := rfl

@[simp] theorem initFromPair_ram (ra dec : ℚ) :
    (initFromPair ra dec).ram =
      ⌊((ra - ⌊ra / 360⌋ * 360) / 15 - ((⌊(ra - ⌊ra / 360⌋ * 360) / 15⌋ : ℤ) : ℚ)) * 60⌋ := rfl

@[simp] theorem initFromPair_ras (ra dec : ℚ) :
    (initFromPair ra dec).ras =
      ((ra - ⌊ra / 360⌋ * 360) / 15 - ((⌊(ra - ⌊ra / 360⌋ * 360) / 15⌋ : ℤ) : ℚ) -
          ((⌊((ra - ⌊ra / 360⌋ * 360) / 15 - ((⌊(ra - ⌊ra / 360⌋ * 360) / 15⌋ : ℤ) : ℚ)) * 60⌋ :
              ℤ) : ℚ) / 60) * 60 * 60 := rfl

@[simp] theorem initFromPair_decsign (ra dec : ℚ) :
    (initFromPair ra dec).decsign = if dec < 0 then "-" else "+" := rfl

@[simp] theorem initFromPair_decd (ra dec : ℚ) : (initFromPair ra dec).decd = ⌊|dec|⌋ := rfl

@[simp] theorem initFromPair_decm (ra dec : ℚ) :
    (initFromPair ra dec).decm = ⌊(|dec| - ((⌊|dec|⌋ : ℤ) : ℚ)) * 60⌋ := rfl

@[simp] theorem initFromPair_decs (ra dec : ℚ) :
    (initFromPair ra dec).decs =
      (|dec| - ((⌊|dec|⌋ : ℤ) : ℚ) -
          ((⌊(|dec| - ((⌊|dec|⌋ : ℤ) : ℚ)) * 60⌋ : ℤ) : ℚ) / 60) * 60 * 60 := rfl

@[simp] theorem initFromPair_delim (ra dec : ℚ) : (initFromPair ra dec).delim = ":" := rfl

@[simp] theorem initFromSix_ra (rah ram : ℤ) (ras : ℚ) (negSign : Bool) (d3 decm : ℤ)
    (decs : ℚ) : (initFromSix rah ram ras negSign d3 decm decs).ra =
      15 * ((rah : ℚ) + (ram : ℚ) / 60 + ras / 3600) := rfl

@[simp] theorem initFromSix_rah (rah ram : ℤ) (ras : ℚ) (negSign : Bool) (d3 decm : ℤ)
    (decs : ℚ) : (initFromSix rah ram ras negSign d3 decm decs).rah = rah := rfl

@[simp] theorem initFromSix_ram (rah ram : ℤ) (ras : ℚ) (negSign : Bool) (d3 decm : ℤ)
    (decs : ℚ) : (initFromSix rah ram ras negSign d3 decm decs).ram = ram := rfl

@[simp] theorem initFromSix_ras (rah ram : ℤ) (ras : ℚ) (negSign : Bool) (d3 decm : ℤ)
    (decs : ℚ) : (initFromSix rah ram ras negSign d3 decm decs).ras = ras := rfl

@[simp] theorem initFromSix_decsign (rah ram : ℤ) (ras : ℚ) (negSign : Bool) (d3 decm : ℤ)
    (decs : ℚ) : (initFromSix rah ram ras negSign d3 decm decs).decsign =
      if negSign then "-" else "+" := rfl

@[simp] theorem initFromSix_decd (rah ram : ℤ) (ras : ℚ) (negSign : Bool) (d3 decm : ℤ)
    (decs : ℚ) : (initFromSix rah ram ras negSign d3 decm decs).decd = |d3| := rfl

@[simp] theorem initFromSix_decm (rah ram : ℤ) (ras : ℚ) (negSign : Bool) (d3 decm : ℤ)
    (decs : ℚ) : (initFromSix rah ram ras negSign d3 decm decs).decm = decm := rfl

@[simp] theorem initFromSix_decs (rah ram : ℤ) (ras : ℚ) (negSign : Bool) (d3 decm : ℤ)
    (decs : ℚ) : (initFromSix rah ram ras negSign d3 decm decs).decs = decs := rfl

theorem initFromSix_dec (rah ram : ℤ) (ras : ℚ) (negSign : Bool) (d3 decm : ℤ)
    (decs : ℚ) : (initFromSix rah ram ras negSign d3 decm decs).dec =
      if negSign then -(|((|d3| : ℤ) : ℚ)| + (decm : ℚ) / 60 + decs / 3600)
      else |((|d3| : ℤ) : ℚ)| + (decm : ℚ) / 60 + decs / 3600 := by
  unfold initFromSix
  by_cases h : negSign = true
  · simp [h]
  · simp at h
    simp [h]

theorem initFromSix_ra0 (rah ram : ℤ) (ras : ℚ) (negSign : Bool) (d3 decm : ℤ)
    (decs : ℚ) : (initFromSix rah ram ras negSign d3 decm decs).ra0 =
      15 * ((rah : ℚ) + (ram : ℚ) / 60 + ras / 3600) -
        (if 15 * ((rah : ℚ) + (ram : ℚ) / 60 + ras / 3600) > 180 then 360 else 0) := rfl

/-! ## Helper bounds -/

/-- The floor-based normalization of line 51 lands in `[0, 360)`. -/
theorem norm360_bounds (r : ℚ) : 0 ≤ r - ⌊r / 360⌋ * 360 ∧ r - ⌊r / 360⌋ * 360 < 360 := by
  have h1 : ((⌊r / 360⌋ : ℤ) : ℚ) ≤ r / 360 := Int.floor_le _
  have h2 : r / 360 < ((⌊r / 360⌋ : ℤ) : ℚ) + 1 := Int.lt_floor_add_one _
  constructor <;> nlinarith

/-- Remapping `ra0 = ra - (360 if ra > 180 else 0)` of line 81 lands in
`(-180, 180]` whenever `0 ≤ ra < 360`. -/
theorem ra0_bounds {ra : ℚ} (h0 : 0 ≤ ra) (h1 : ra < 360) :
    -180 < ra - (if ra > 180 then 360 else 0) ∧ ra - (if ra > 180 then 360 else 0) ≤ 180 := by
  split <;> constructor <;> linarith

/-- Bounds and exactness of the sexagesimal decomposition pattern used at
lines 53-56 and 59-62: for `x ≥ 0`, the whole part, the minute and the
second satisfy the expected ranges and reconstruct `x` exactly. -/
theorem sexa_floor_bounds (x : ℚ) (hx : 0 ≤ x) :
    0 ≤ ⌊x⌋ ∧
    0 ≤ ⌊(x - (⌊x⌋ : ℚ)) * 60⌋ ∧ ⌊(x - (⌊x⌋ : ℚ)) * 60⌋ ≤ 59 ∧
    0 ≤ (x - (⌊x⌋ : ℚ) - ((⌊(x - (⌊x⌋ : ℚ)) * 60⌋ : ℤ) : ℚ) / 60) * 60 * 60 ∧
    (x - (⌊x⌋ : ℚ) - ((⌊(x - (⌊x⌋ : ℚ)) * 60⌋ : ℤ) : ℚ) / 60) * 60 * 60 < 60 ∧
    x = ((⌊x⌋ : ℤ) : ℚ) + ((⌊(x - (⌊x⌋ : ℚ)) * 60⌋ : ℤ) : ℚ) / 60 +
      ((x - (⌊x⌋ : ℚ) - ((⌊(x - (⌊x⌋ : ℚ)) * 60⌋ : ℤ) : ℚ) / 60) * 60 * 60) / 3600 := by
  have ha0 : ((⌊x⌋ : ℤ) : ℚ) ≤ x := Int.floor_le x
  have ha1 : x < ((⌊x⌋ : ℤ) : ℚ) + 1 := Int.lt_floor_add_one x
  have hb0 : ((⌊(x - (⌊x⌋ : ℚ)) * 60⌋ : ℤ) : ℚ) ≤ (x - (⌊x⌋ : ℚ)) * 60 := Int.floor_le _
  have hb1 : (x - (⌊x⌋ : ℚ)) * 60 < ((⌊(x - (⌊x⌋ : ℚ)) * 60⌋ : ℤ) : ℚ) + 1 :=
    Int.lt_floor_add_one _
  refine ⟨?_, ?_, ?_, ?_, ?_, ?_⟩
  · exact Int.le_floor.mpr (by exact_mod_cast hx)
  · exact Int.le_floor.mpr (by push_cast; nlinarith)
  · have : ⌊(x - (⌊x⌋ : ℚ)) * 60⌋ < 60 := Int.floor_lt.mpr (by push_cast; nlinarith)
    omega
  · nlinarith
  · nlinarith
  · ring

/-! ## C3: bad token counts fail with the token list in the error -/

/-- Helper for C3: `equatorialOfTokens` on any token list whose length is
neither 2 nor 6 falls through to the error carrying the token list. -/
theorem equatorialOfTokens_badCount (toks : List String)
    (h2 : toks.length ≠ 2) (h6 : toks.length ≠ 6) :
    equatorialOfTokens toks = .error (.badCount toks) := by
  rcases toks with _ | ⟨a0, _ | ⟨a1, _ | ⟨a2, _ | ⟨a3, _ | ⟨a4, _ | ⟨a5, _ | ⟨a6, rest⟩⟩⟩⟩⟩⟩⟩
  · rfl
  · rfl
  · exact absurd rfl h2
  · rfl
  · rfl
  · rfl
  · exact absurd rfl h6
  · rfl

/-- C3: constructing from input whose tokenization yields a token count
other than 2 or 6 fails with `badCount` carrying the parsed token list;
the `Except` result models atomic failure (no partial object exists on
the error path, and the `ok` path carries a fully built object). -/
theorem c3_invalid_token_count (args : List String)
    (h2 : (tokenize args).length ≠ 2) (h6 : (tokenize args).length ≠ 6) :
    equatorialCoordinate args = .error (.badCount (tokenize args)) :=
  equatorialOfTokens_badCount (tokenize args) h2 h6

/-- Witness for C3 at the spec example `EquatorialCoordinate("1,2,3")`,
whose tokenization `["1", "2", "3"]` has 3 tokens. -/
theorem c3_invalid_token_count_witness :
    (tokenize ["1,2,3"]).length ≠ 2 ∧ (tokenize ["1,2,3"]).length ≠ 6 ∧
      equatorialCoordinate ["1,2,3"] = .error (.badCount ["1", "2", "3"]) := by
  refine ⟨by decide, by decide, ?_⟩
  have ht : tokenize ["1,2,3"] = ["1", "2", "3"] := by decide
  rw [← ht]
  exact c3_invalid_token_count ["1,2,3"] (by decide) (by decide)

/-! ## C4: cascading seconds rollover at ra just below 360 degrees -/

/-- C4: for the 2-token construction with
`ra = 15*(23 + 59/60 + 59.9999/3600)` degrees and any `dec`, the seconds
format to `60.000` and the cascade resets seconds and minutes and wraps the
hour from 24 to 00, rendering exactly `"00:00:00.000"`. -/
theorem c4_seconds_rollover (dec : ℚ) :
    get_ra_hms (initFromPair (15 * (23 + 59 / 60 + (599999 / 10000) / 3600)) dec) =
      "00:00:00.000" := by
  have hrah : (initFromPair (15 * (23 + 59 / 60 + (599999 / 10000) / 3600)) dec).rah = 23 := by
    rw [initFromPair_rah]; norm_num
  have hram : (initFromPair (15 * (23 + 59 / 60 + (599999 / 10000) / 3600)) dec).ram = 59 := by
    rw [initFromPair_ram]; norm_num
  have hras : (initFromPair (15 * (23 + 59 / 60 + (599999 / 10000) / 3600)) dec).ras =
      599999 / 10000 := by
    rw [initFromPair_ras]; norm_num
  have hf : fmtF 6 3 (599999 / 10000 : ℚ) = "60.000".data := by
    rw [fmtF, show round ((599999 / 10000 : ℚ) * 10 ^ 3) = 60000 by rw [round_eq]; norm_num]
    decide
  simp only [get_ra_hms, hras, hram, hrah, initFromPair_delim, hf]
  decide

/-! ## C9: rendering mutates nothing; delim affects only rendering -/

/-- C9: the rendering methods perform no attribute assignment (their
state-passing embeddings return the state unchanged, rollover included),
and mutating `delim` changes no stored numeric or sign attribute. -/
theorem c9_rendering_frame (e : Equatorial) (d : String) :
    (get_ra_hms_state e).2 = e ∧ (get_dec_dms_state e).2 = e ∧
    (setDelim e d).ra = e.ra ∧ (setDelim e d).dec = e.dec ∧
    (setDelim e d).ra0 = e.ra0 ∧ (setDelim e d).rah = e.rah ∧
    (setDelim e d).ram = e.ram ∧ (setDelim e d).ras = e.ras ∧
    (setDelim e d).decsign = e.decsign ∧ (setDelim e d).decd = e.decd ∧
    (setDelim e d).decm = e.decm ∧ (setDelim e d).decs = e.decs ∧
    (setDelim e d).delim = d :=
  ⟨rfl, rfl, rfl, rfl, rfl, rfl, rfl, rfl, rfl, rfl, rfl, rfl, rfl⟩

/-! ## C7: scalar/array polymorphism of sph_dist -/

/-- Helper for C7: with scalar first pair and array second pair, the numpy
pipeline computes exactly the elementwise scalar function. -/
theorem sph_dist_np_ssaa (a1 d1 : ℝ) (xs ys : List ℝ) :
    sph_dist_np (.scalar a1) (.scalar d1) (.arr xs) (.arr ys) =
      .arr (List.zipWith (fun x y => sph_dist a1 d1 x y) xs ys) := by
  induction xs generalizing ys with
  | nil => cases ys <;> rfl
  | cons x xs ih =>
    cases ys with
    | nil => rfl
    | cons y ys =>
      have h := ih ys
      simp only [sph_dist_np, NpVal.map1, NpVal.map2, List.map_cons, List.zipWith_cons_cons,
        NpVal.arr.injEq, List.cons.injEq] at h ⊢
      exact ⟨rfl, h⟩

/-- C7: sphericalDistance on array input equals the elementwise map of the
scalar function (instantiated at ra2 = [1,2,3,4], dec2 = [4,5,6,7] against
fixed scalars (1,2)), all-scalar input yields a scalar result, and the
result is an array exactly when some input is an array. -/
theorem c7_elementwise_and_type_mirroring :
    (∀ a1 d1 : ℝ, ∀ xs ys : List ℝ,
      sph_dist_np (.scalar a1) (.scalar d1) (.arr xs) (.arr ys) =
        .arr (List.zipWith (fun x y => sph_dist a1 d1 x y) xs ys)) ∧
    sph_dist_np (.scalar 1) (.scalar 2) (.arr [1, 2, 3, 4]) (.arr [4, 5, 6, 7]) =
      .arr [sph_dist 1 2 1 4, sph_dist 1 2 2 5, sph_dist 1 2 3 6, sph_dist 1 2 4 7] ∧
    (∀ a1 d1 a2 d2 : ℝ,
      sph_dist_np (.scalar a1) (.scalar d1) (.scalar a2) (.scalar d2) =
        .scalar (sph_dist a1 d1 a2 d2)) ∧
    (∀ v1 v2 v3 v4 : NpVal,
      (sph_dist_np v1 v2 v3 v4).isArr = (v1.isArr || v2.isArr || v3.isArr || v4.isArr)) := by
  refine ⟨sph_dist_np_ssaa, ?_, fun a1 d1 a2 d2 => rfl, ?_⟩
  · rw [sph_dist_np_ssaa]
    rfl
  · intro v1 v2 v3 v4
    cases v1 <;> cases v2 <;> cases v3 <;> cases v4 <;> rfl

/-! ## C8: distance from a point to itself is zero -/

/-- C8: `sph_dist(0,0,0,0) = 0` and, for every angle pair, the haversine
pipeline (h built from squared sines, clamp, `degrees(2*arcsin(sqrt h))`)
sends a point paired with itself to zero. -/
theorem c8_self_distance_zero :
    sph_dist 0 0 0 0 = 0 ∧ ∀ a d : ℝ, sph_dist a d a d = 0 := by
  have key : ∀ a d : ℝ, sph_dist a d a d = 0 := by
    intro a d
    simp [sph_dist, hRaw, clampH, haversine, degrees, sub_self, Real.sin_zero]
  exact ⟨key 0 0, key⟩

/-! ## C10: the clamped haversine value is a valid arcsin argument -/

/-- The haversine half-angle identity used to bound `h`. -/
theorem hav_eq (t : ℝ) : haversine t = (1 - Real.cos t) / 2 := by
  have h2 : 2 * (t / 2) = t := by ring
  rw [haversine, Real.sin_sq_eq_half_sub, h2]
  ring

/-- Degree-to-radian conversion maps `[-90, 90]` into `[-pi/2, pi/2]`. -/
theorem radians_mem (d : ℝ) (h1 : -90 ≤ d) (h2 : d ≤ 90) :
    -(Real.pi / 2) ≤ radians d ∧ radians d ≤ Real.pi / 2 := by
  have hp := Real.pi_pos
  constructor
  · rw [radians]; nlinarith
  · rw [radians]; nlinarith

/-- C10: for declinations in `[-90, 90]` degrees the haversine value `h`
already lies in `[0, 1]`, the clamp of line 155 is the identity, and the
distance is a well-defined value in `[0, 180]` degrees. -/
theorem c10_haversine_domain_safety (a1 d1 a2 d2 : ℝ) (h1l : -90 ≤ d1) (h1u : d1 ≤ 90)
    (h2l : -90 ≤ d2) (h2u : d2 ≤ 90) :
    0 ≤ hRaw a1 d1 a2 d2 ∧ hRaw a1 d1 a2 d2 ≤ 1 ∧
    clampH (hRaw a1 d1 a2 d2) = hRaw a1 d1 a2 d2 ∧
    0 ≤ sph_dist a1 d1 a2 d2 ∧ sph_dist a1 d1 a2 d2 ≤ 180 := by
  obtain ⟨hm1, hM1⟩ := radians_mem d1 h1l h1u
  obtain ⟨hm2, hM2⟩ := radians_mem d2 h2l h2u
  have hc1 : 0 ≤ Real.cos (radians d1) := Real.cos_nonneg_of_mem_Icc ⟨hm1, hM1⟩
  have hc2 : 0 ≤ Real.cos (radians d2) := Real.cos_nonneg_of_mem_Icc ⟨hm2, hM2⟩
  have h0 : 0 ≤ hRaw a1 d1 a2 d2 := by
    rw [hRaw]
    unfold haversine
    positivity
  have h1 : hRaw a1 d1 a2 d2 ≤ 1 := by
    rw [hRaw, hav_eq, hav_eq]
    have hcos_sub := Real.cos_sub (radians d1) (radians d2)
    have hcos_add := Real.cos_add (radians d1) (radians d2)
    have hle : Real.cos (radians d1 + radians d2) ≤ 1 := Real.cos_le_one _
    have hcos2 : -1 ≤ Real.cos (radians a1 - radians a2) := Real.neg_one_le_cos _
    nlinarith [mul_nonneg hc1 hc2]
  have habs : ¬(|hRaw a1 d1 a2 d2| > 1) := by
    rw [not_lt, abs_le]
    exact ⟨by linarith, h1⟩
  have hclamp : clampH (hRaw a1 d1 a2 d2) = hRaw a1 d1 a2 d2 := by
    rw [clampH, if_neg habs]
  have ha0 : 0 ≤ Real.arcsin (Real.sqrt (hRaw a1 d1 a2 d2)) :=
    Real.arcsin_nonneg.mpr (Real.sqrt_nonneg _)
  have haM : Real.arcsin (Real.sqrt (hRaw a1 d1 a2 d2)) ≤ Real.pi / 2 :=
    Real.arcsin_le_pi_div_two _
  have hp := Real.pi_pos
  refine ⟨h0, h1, hclamp, ?_, ?_⟩
  · rw [sph_dist, hclamp, degrees]
    positivity
  · rw [sph_dist, hclamp, degrees]
    rw [div_le_iff₀ hp]
    nlinarith

/-- Witness for C10 at the all-zero input. -/
theorem c10_haversine_domain_safety_witness :
    ((-90 : ℝ) ≤ 0 ∧ (0 : ℝ) ≤ 90) ∧
      (0 ≤ hRaw 0 0 0 0 ∧ hRaw 0 0 0 0 ≤ 1 ∧ clampH (hRaw 0 0 0 0) = hRaw 0 0 0 0 ∧
        0 ≤ sph_dist 0 0 0 0 ∧ sph_dist 0 0 0 0 ≤ 180) :=
  ⟨⟨by norm_num, by norm_num⟩,
    c10_haversine_domain_safety 0 0 0 0 (by norm_num) (by norm_num) (by norm_num) (by norm_num)⟩

/-! ## Shared evaluation helpers for concrete constructions -/

/-- `float("0")` is zero. -/
theorem parseFloat?_zero : parseFloat? "0" = some 0 := by
  simp +decide [parseFloat?, parseSign, digitsVal?, digitsValD, digitVal, allDigits]

/-- The 2-token dispatch of `__init__` after successful `float()` calls. -/
theorem equatorialOfTokens_pair (a0 a1 : String) (ra dec : ℚ)
    (h0 : parseFloat? a0 = some ra) (h1 : parseFloat? a1 = some dec) :
    equatorialOfTokens [a0, a1] = .ok (initFromPair ra dec) := by
  simp only [equatorialOfTokens, h0, h1]

/-- The 6-token dispatch of `__init__` after successful numeric
conversions. -/
theorem equatorialOfTokens_six (a0 a1 a2 a3 a4 a5 : String) (rah ram : ℤ) (ras : ℚ)
    (d3 decm : ℤ) (decs : ℚ) (h0 : parseInt? a0 = some rah) (h1 : parseInt? a1 = some ram)
    (h2 : parseFloat? a2 = some ras) (h3 : parseInt? a3 = some d3)
    (h4 : parseInt? a4 = some decm) (h5 : parseFloat? a5 = some decs) :
    equatorialOfTokens [a0, a1, a2, a3, a4, a5] =
      .ok (initFromSix rah ram ras (startsWithNeg a3) d3 decm decs) := by
  simp only [equatorialOfTokens, h0, h1, h2, h3, h4, h5]

/-! ## C1: ra and ra0 range invariants -/

/-- Counterexample to C1 as stated: the 6-token construction from hour 25
succeeds and stores `ra = 375`, outside `[0, 360)`. -/
theorem c1_counterexample :
    (equatorialCoordinate ["25", "0", "0", "0", "0", "0"]).toOption.map Equatorial.ra =
      some 375 ∧ ¬((375 : ℚ) < 360) := by
  constructor
  · have ht : tokenize ["25", "0", "0", "0", "0", "0"] = ["25", "0", "0", "0", "0", "0"] := by
      decide
    rw [equatorialCoordinate, ht,
      equatorialOfTokens_six "25" "0" "0" "0" "0" "0" 25 0 0 0 0 0 (by decide) (by decide)
        parseFloat?_zero (by decide) (by decide) parseFloat?_zero]
    simp only [Except.toOption, Option.map, initFromSix_ra]
    norm_num
  · norm_num

/-- C1 (amended): the 2-token branch always stores `ra` in `[0, 360)` and
`ra0` in `(-180, 180]`; the 6-token branch, which stores the tokens without
normalization, does so provided the given hour, minute and second components
are themselves in the standard ranges. -/
theorem c1_ra_bounds_amended :
    (∀ ra dec : ℚ, 0 ≤ (initFromPair ra dec).ra ∧ (initFromPair ra dec).ra < 360 ∧
      -180 < (initFromPair ra dec).ra0 ∧ (initFromPair ra dec).ra0 ≤ 180) ∧
    (∀ (rah ram : ℤ) (ras : ℚ) (negSign : Bool) (d3 decm : ℤ) (decs : ℚ),
      0 ≤ rah → rah ≤ 23 → 0 ≤ ram → ram ≤ 59 → 0 ≤ ras → ras < 60 →
      0 ≤ (initFromSix rah ram ras negSign d3 decm decs).ra ∧
        (initFromSix rah ram ras negSign d3 decm decs).ra < 360 ∧
        -180 < (initFromSix rah ram ras negSign d3 decm decs).ra0 ∧
        (initFromSix rah ram ras negSign d3 decm decs).ra0 ≤ 180) := by
  constructor
  · intro ra dec
    obtain ⟨hn0, hn1⟩ := norm360_bounds ra
    obtain ⟨hr0, hr1⟩ := ra0_bounds hn0 hn1
    exact ⟨by rw [initFromPair_ra]; exact hn0, by rw [initFromPair_ra]; exact hn1,
      by rw [initFromPair_ra0]; exact hr0, by rw [initFromPair_ra0]; exact hr1⟩
  · intro rah ram ras negSign d3 decm decs hh0 hh1 hm0 hm1 hs0 hs1
    have hcast0 : (0 : ℚ) ≤ (rah : ℚ) := by exact_mod_cast hh0
    have hcast1 : (rah : ℚ) ≤ 23 := by exact_mod_cast hh1
    have hcast2 : (0 : ℚ) ≤ (ram : ℚ) := by exact_mod_cast hm0
    have hcast3 : (ram : ℚ) ≤ 59 := by exact_mod_cast hm1
    have h0 : 0 ≤ 15 * ((rah : ℚ) + (ram : ℚ) / 60 + ras / 3600) := by linarith
    have h1 : 15 * ((rah : ℚ) + (ram : ℚ) / 60 + ras / 3600) < 360 := by linarith
    obtain ⟨hr0, hr1⟩ := ra0_bounds h0 h1
    exact ⟨by rw [initFromSix_ra]; exact h0, by rw [initFromSix_ra]; exact h1,
      by rw [initFromSix_ra0]; exact hr0, by rw [initFromSix_ra0]; exact hr1⟩

/-- Witness for C1 (amended) at an in-range 6-token input. -/
theorem c1_ra_bounds_amended_witness :
    ((0 : ℤ) ≤ 12 ∧ (12 : ℤ) ≤ 23 ∧ (0 : ℤ) ≤ 30 ∧ (30 : ℤ) ≤ 59 ∧ (0 : ℚ) ≤ 15 ∧
        (15 : ℚ) < 60) ∧
      (0 ≤ (initFromSix 12 30 15 false 5 6 7).ra ∧
        (initFromSix 12 30 15 false 5 6 7).ra < 360 ∧
        -180 < (initFromSix 12 30 15 false 5 6 7).ra0 ∧
        (initFromSix 12 30 15 false 5 6 7).ra0 ≤ 180) :=
  ⟨⟨by norm_num, by norm_num, by norm_num, by norm_num, by norm_num, by norm_num⟩,
    c1_ra_bounds_amended.2 12 30 15 false 5 6 7 (by norm_num) (by norm_num) (by norm_num)
      (by norm_num) (by norm_num) (by norm_num)⟩

/-! ## C5: stored sexagesimal component ranges -/

/-- Counterexample to C5 as stated: a 6-token construction stores the seconds
token unchecked, here `ras = 61.5`, outside `[0, 60)`. -/
theorem c5_counterexample :
    (equatorialCoordinate ["12", "0", "61.5", "0", "0", "0"]).toOption.map Equatorial.ras =
      some (123 / 2) ∧ ¬((123 / 2 : ℚ) < 60) := by
  constructor
  · have ht : tokenize ["12", "0", "61.5", "0", "0", "0"] =
        ["12", "0", "61.5", "0", "0", "0"] := by decide
    have hf : parseFloat? "61.5" = some (123 / 2) := by
      simp +decide [parseFloat?, parseSign, digitsVal?, digitsValD, digitVal, allDigits]
      norm_num
    rw [equatorialCoordinate, ht,
      equatorialOfTokens_six "12" "0" "61.5" "0" "0" "0" 12 0 (123 / 2) 0 0 0 (by decide)
        (by decide) hf (by decide) (by decide) parseFloat?_zero]
    simp only [Except.toOption, Option.map, initFromSix_ras]
  · norm_num

/-- C5 (amended): the 2-token branch always stores components in the stated
ranges (`rah` in `[0,23]`, `ram` in `[0,59]`, `ras` in `[0,60)`, `decd >= 0`,
`decm` in `[0,59]`, `decs` in `[0,60)`); the 6-token branch stores exactly
the parsed tokens, so its components satisfy the ranges only when the input
does. -/
theorem c5_components_amended :
    (∀ ra dec : ℚ,
      0 ≤ (initFromPair ra dec).rah ∧ (initFromPair ra dec).rah ≤ 23 ∧
      0 ≤ (initFromPair ra dec).ram ∧ (initFromPair ra dec).ram ≤ 59 ∧
      0 ≤ (initFromPair ra dec).ras ∧ (initFromPair ra dec).ras < 60 ∧
      0 ≤ (initFromPair ra dec).decd ∧
      0 ≤ (initFromPair ra dec).decm ∧ (initFromPair ra dec).decm ≤ 59 ∧
      0 ≤ (initFromPair ra dec).decs ∧ (initFromPair ra dec).decs < 60) ∧
    (∀ (rah ram : ℤ) (ras : ℚ) (negSign : Bool) (d3 decm : ℤ) (decs : ℚ),
      (initFromSix rah ram ras negSign d3 decm decs).rah = rah ∧
      (initFromSix rah ram ras negSign d3 decm decs).ram = ram ∧
      (initFromSix rah ram ras negSign d3 decm decs).ras = ras ∧
      (initFromSix rah ram ras negSign d3 decm decs).decm = decm ∧
      (initFromSix rah ram ras negSign d3 decm decs).decs = decs) := by
  constructor
  · intro ra dec
    obtain ⟨hn0, hn1⟩ := norm360_bounds ra
    have hx : 0 ≤ (ra - ⌊ra / 360⌋ * 360) / 15 := by linarith
    obtain ⟨h1, h2, h3, h4, h5, _⟩ := sexa_floor_bounds ((ra - ⌊ra / 360⌋ * 360) / 15) hx
    obtain ⟨g1, g2, g3, g4, g5, _⟩ := sexa_floor_bounds |dec| (abs_nonneg dec)
    have hrah23 : ⌊(ra - ⌊ra / 360⌋ * 360) / 15⌋ ≤ 23 := by
      have h24 : ⌊(ra - ⌊ra / 360⌋ * 360) / 15⌋ < 24 := Int.floor_lt.mpr (by push_cast; linarith)
      omega
    exact ⟨by rw [initFromPair_rah]; exact h1, by rw [initFromPair_rah]; exact hrah23,
      by rw [initFromPair_ram]; exact h2, by rw [initFromPair_ram]; exact h3,
      by rw [initFromPair_ras]; exact h4, by rw [initFromPair_ras]; exact h5,
      by rw [initFromPair_decd]; exact g1,
      by rw [initFromPair_decm]; exact g2, by rw [initFromPair_decm]; exact g3,
      by rw [initFromPair_decs]; exact g4, by rw [initFromPair_decs]; exact g5⟩
  · intro rah ram ras negSign d3 decm decs
    exact ⟨rfl, rfl, rfl, rfl, rfl⟩

/-! ## C6: sign consistency of decsign and dec -/

/-- Counterexample to C6 as stated: a 6-token construction with a negative
minutes token yields `dec = -1/2 < 0` while `decsign` is `"+"`. -/
theorem c6_counterexample :
    (equatorialCoordinate ["12", "0", "0", "0", "-30", "0"]).toOption.map
      (fun e => (e.decsign, decide (e.dec < 0))) = some ("+", true) := by
  have ht : tokenize ["12", "0", "0", "0", "-30", "0"] =
      ["12", "0", "0", "0", "-30", "0"] := by decide
  rw [equatorialCoordinate, ht,
    equatorialOfTokens_six "12" "0" "0" "0" "-30" "0" 12 0 0 0 (-30) 0 (by decide)
      (by decide) parseFloat?_zero (by decide) (by decide) parseFloat?_zero,
    show startsWithNeg "0" = false from by decide]
  simp only [Except.toOption, Option.map, initFromSix_decsign, initFromSix_dec,
    Bool.false_eq_true, if_false, decide_eq_true_eq]
  norm_num

/-- C6 (amended): in the 2-token branch `decsign` is `"-"` exactly when `dec`
is negative and `"+"` otherwise; in the 6-token branch `decsign` comes from
the textual minus of the degree token, and it matches the sign of `dec`
whenever the parsed minute and second magnitudes are nonnegative and a minus
sign comes with a positive total magnitude; the spec example
`(12, 1, 2.34, "-34", 12, 34.11)` yields `dec < 0` with `decsign = "-"`. -/
theorem c6_decsign_amended :
    (∀ ra dec : ℚ, ((initFromPair ra dec).decsign = "-" ↔ dec < 0) ∧
      ((initFromPair ra dec).decsign = "+" ↔ ¬dec < 0)) ∧
    (∀ (rah ram : ℤ) (ras : ℚ) (negSign : Bool) (d3 decm : ℤ) (decs : ℚ),
      0 ≤ decm → 0 ≤ decs →
      (negSign = true → 0 < |(d3 : ℚ)| + (decm : ℚ) / 60 + decs / 3600) →
      ((initFromSix rah ram ras negSign d3 decm decs).decsign = "-" ↔
        (initFromSix rah ram ras negSign d3 decm decs).dec < 0)) ∧
    (equatorialCoordinate ["12", "1", "2.34", "-34", "12", "34.11"]).toOption.map
      (fun e => (e.decsign, decide (e.dec < 0))) = some ("-", true) := by
  refine ⟨?_, ?_, ?_⟩
  · intro ra dec
    rw [initFromPair_decsign]
    by_cases h : dec < 0
    · simp +decide [h]
    · simp +decide [h]
  · intro rah ram ras negSign d3 decm decs hm hs hpos
    have hdm : (0 : ℚ) ≤ (decm : ℚ) := by exact_mod_cast hm
    rw [initFromSix_decsign, initFromSix_dec]
    have hc : |((|d3| : ℤ) : ℚ)| = |(d3 : ℚ)| := by
      rw [Int.cast_abs, abs_abs]
    cases negSign with
    | true =>
      have hmag := hpos rfl
      rw [hc]
      simp only [if_true]
      have hneg : -(|(d3 : ℚ)| + (decm : ℚ) / 60 + decs / 3600) < 0 := by linarith
      exact iff_of_true trivial hneg
    | false =>
      rw [hc]
      simp only [Bool.false_eq_true, if_false]
      have hge : 0 ≤ |(d3 : ℚ)| + (decm : ℚ) / 60 + decs / 3600 := by
        have := abs_nonneg (d3 : ℚ)
        linarith
      constructor
      · intro hcontra
        exact absurd hcontra (by decide)
      · intro hcontra
        exact absurd hcontra (not_lt.mpr hge)
  · have ht : tokenize ["12", "1", "2.34", "-34", "12", "34.11"] =
        ["12", "1", "2.34", "-34", "12", "34.11"] := by decide
    have h2 : parseFloat? "2.34" = some (117 / 50) := by
      simp +decide [parseFloat?, parseSign, digitsVal?, digitsValD, digitVal, allDigits]
      norm_num
    have h5 : parseFloat? "34.11" = some (3411 / 100) := by
      simp +decide [parseFloat?, parseSign, digitsVal?, digitsValD, digitVal, allDigits]
      norm_num
    rw [equatorialCoordinate, ht,
      equatorialOfTokens_six "12" "1" "2.34" "-34" "12" "34.11" 12 1 (117 / 50) (-34) 12
        (3411 / 100) (by decide) (by decide) h2 (by decide) (by decide) h5,
      show startsWithNeg "-34" = true from by decide]
    simp only [Except.toOption, Option.map, initFromSix_decsign, initFromSix_dec, if_true,
      decide_eq_true_eq]
    norm_num

/-- Witness for C6 (amended) at the in-range 6-token input of the spec
example. -/
theorem c6_decsign_amended_witness :
    ((0 : ℤ) ≤ 12 ∧ (0 : ℚ) ≤ 34 ∧
        (true = true → 0 < |((-34 : ℤ) : ℚ)| + ((12 : ℤ) : ℚ) / 60 + (34 : ℚ) / 3600)) ∧
      ((initFromSix 12 1 2 true (-34) 12 34).decsign = "-" ↔
        (initFromSix 12 1 2 true (-34) 12 34).dec < 0) :=
  ⟨⟨by norm_num, by norm_num, fun _ => by norm_num⟩,
    c6_decsign_amended.2.1 12 1 2 true (-34) 12 34 (by norm_num) (by norm_num)
      (fun _ => by norm_num)⟩

/-! ## C2 machinery: decimal digit strings, parse/format round trips,
and tokenization of the rendered sexagesimal strings -/

theorem digitVal_digitChar {d : ℕ} (h : d < 10) : digitVal (digitChar d) = d := by
  interval_cases d <;> rfl

theorem isDigit_digitChar {d : ℕ} (h : d < 10) : (digitChar d).isDigit = true := by
  interval_cases d <;> rfl

theorem natCharsAux_eq {fuel n : ℕ} (h : n ≤ fuel) :
    natCharsAux fuel n = ((Nat.digits 10 n).map digitChar).reverse := by
  induction fuel generalizing n with
  | zero =>
    have h0 : n = 0 := Nat.le_zero.mp h
    subst h0
    simp [natCharsAux]
  | succ fuel ih =>
    by_cases h0 : n = 0
    · subst h0
      simp [natCharsAux]
    · rw [natCharsAux, if_neg h0]
      have hlt : n / 10 ≤ fuel := by
        have hd : n / 10 < n := Nat.div_lt_self (Nat.pos_of_ne_zero h0) (by norm_num)
        omega
      rw [ih hlt, Nat.digits_def' (by norm_num : (1:ℕ) < 10) (Nat.pos_of_ne_zero h0)]
      simp

theorem natChars_eq {n : ℕ} (h : n ≠ 0) :
    natChars n = ((Nat.digits 10 n).map digitChar).reverse := by
  rw [natChars, if_neg h]
  exact natCharsAux_eq (Nat.le_succ n)

theorem natChars_all_digits (n : ℕ) : ∀ c ∈ natChars n, c.isDigit = true := by
  by_cases h : n = 0
  · subst h
    intro c hc
    simp [natChars] at hc
    subst hc
    rfl
  · rw [natChars_eq h]
    intro c hc
    rw [List.mem_reverse, List.mem_map] at hc
    obtain ⟨d, hd, rfl⟩ := hc
    exact isDigit_digitChar (Nat.digits_lt_base (by norm_num) hd)

theorem natChars_ne_nil (n : ℕ) : natChars n ≠ [] := by
  by_cases h : n = 0
  · subst h
    simp [natChars]
  · rw [natChars_eq h]
    simp [Nat.digits_ne_nil_iff_ne_zero.mpr h]

theorem foldl_digits_be (L : List ℕ) (hL : ∀ d ∈ L, d < 10) :
    ∀ acc : ℕ, List.foldl (fun a c => a * 10 + digitVal c) acc ((L.map digitChar).reverse) =
      acc * 10 ^ L.length + Nat.ofDigits 10 L := by
  induction L with
  | nil => intro acc; simp
  | cons d L ih =>
    intro acc
    have hd : d < 10 := hL d (List.mem_cons_self d L)
    have hL2 : ∀ x ∈ L, x < 10 := fun x hx => hL x (List.mem_cons_of_mem d hx)
    simp only [List.map_cons, List.reverse_cons, List.foldl_append, ih hL2, List.foldl_cons,
      List.foldl_nil, digitVal_digitChar hd, Nat.ofDigits_cons, List.length_cons]
    ring

theorem digitsValD_natChars (n : ℕ) : digitsValD (natChars n) = n := by
  by_cases h : n = 0
  · subst h
    rfl
  · rw [natChars_eq h, digitsValD,
      foldl_digits_be _ (fun d hd => Nat.digits_lt_base (by norm_num) hd) 0,
      Nat.ofDigits_digits]
    simp

theorem foldl_zeros (k : ℕ) :
    List.foldl (fun a c => a * 10 + digitVal c) 0 (List.replicate k '0') = 0 := by
  induction k with
  | zero => rfl
  | succ k ih =>
    rw [List.replicate_succ, List.foldl_cons]
    simpa using ih

theorem digitsValD_zeros (k : ℕ) (cs : List Char) :
    digitsValD (List.replicate k '0' ++ cs) = digitsValD cs := by
  rw [digitsValD, digitsValD, List.foldl_append, foldl_zeros]

theorem zpad_all_digits (w : ℕ) (cs : List Char) (h : ∀ c ∈ cs, c.isDigit = true) :
    ∀ c ∈ zpad w cs, c.isDigit = true := by
  intro c hc
  rw [zpad, List.mem_append] at hc
  rcases hc with hc | hc
  · rw [List.eq_of_mem_replicate hc]
    rfl
  · exact h c hc

theorem zpad_ne_nil (w : ℕ) (cs : List Char) (h : cs ≠ []) : zpad w cs ≠ [] := by
  rw [zpad]
  simp [h]

theorem zpad_length (w : ℕ) (cs : List Char) (h : cs.length ≤ w) :
    (zpad w cs).length = w := by
  simp only [zpad, List.length_append, List.length_replicate]
  omega

theorem natChars_length_le {n p : ℕ} (hp : 1 ≤ p) (h : n < 10 ^ p) :
    (natChars n).length ≤ p := by
  by_cases h0 : n = 0
  · subst h0
    simpa [natChars] using hp
  · rw [natChars_eq h0]
    simp only [List.length_reverse, List.length_map]
    by_contra hlen
    push_neg at hlen
    have h10 : 10 ^ (Nat.digits 10 n).length ≤ 10 * n :=
      Nat.base_pow_length_digits_le 10 n (by norm_num) h0
    have hmono : 10 ^ (p + 1) ≤ 10 ^ (Nat.digits 10 n).length :=
      Nat.pow_le_pow_right (by norm_num) hlen
    have hle : 10 ^ p * 10 ≤ 10 * n := by
      rw [← pow_succ]
      exact le_trans hmono h10
    omega

theorem parseSign_digit {c : Char} (cs : List Char) (h : c.isDigit = true) :
    parseSign (c :: cs) = (false, c :: cs) := by
  have h1 : c ≠ '-' := fun hc => by subst hc; exact absurd h (by decide)
  have h2 : c ≠ '+' := fun hc => by subst hc; exact absurd h (by decide)
  simp [parseSign, h1, h2]

theorem digitsVal?_of_digits (cs : List Char) (hne : cs ≠ [])
    (h : ∀ c ∈ cs, c.isDigit = true) : digitsVal? cs = some (digitsValD cs) := by
  rw [digitsVal?, if_neg, if_pos]
  · exact List.all_eq_true.mpr h
  · simp [hne]

theorem parseIntChars_of_digits (cs : List Char) (hne : cs ≠ [])
    (h : ∀ c ∈ cs, c.isDigit = true) :
    parseInt? ⟨cs⟩ = some (digitsValD cs : ℤ) := by
  obtain ⟨a, cs2, rfl⟩ := List.exists_cons_of_ne_nil hne
  rw [parseInt?]
  have hd : (String.mk (a :: cs2)).data = a :: cs2 := rfl
  rw [hd, parseSign_digit _ (h a (List.mem_cons_self a cs2)),
    digitsVal?_of_digits _ hne h]
  simp

theorem parseInt?_fmtD_nonneg (w : ℕ) {n : ℤ} (hn : 0 ≤ n) :
    parseInt? ⟨fmtD w n⟩ = some n := by
  rw [fmtD, if_neg (not_lt.mpr hn), zpad,
    parseIntChars_of_digits _ (by simp [natChars_ne_nil n.natAbs])
      (fun c hc => by
        rw [List.mem_append] at hc
        rcases hc with hc | hc
        · rw [List.eq_of_mem_replicate hc]; rfl
        · exact natChars_all_digits n.natAbs c hc),
    digitsValD_zeros, digitsValD_natChars]
  rw [Int.natAbs_of_nonneg hn]

theorem parseInt?_neg_digits (cs : List Char) (hne : cs ≠ [])
    (h : ∀ c ∈ cs, c.isDigit = true) :
    parseInt? ⟨'-' :: cs⟩ = some (-(digitsValD cs : ℤ)) := by
  rw [parseInt?]
  have hd : (String.mk ('-' :: cs)).data = '-' :: cs := rfl
  rw [hd]
  have hs : parseSign ('-' :: cs) = (true, cs) := by simp [parseSign]
  rw [hs, digitsVal?_of_digits _ hne h]
  simp

theorem parseInt?_plus_digits (cs : List Char) (hne : cs ≠ [])
    (h : ∀ c ∈ cs, c.isDigit = true) :
    parseInt? ⟨'+' :: cs⟩ = some (digitsValD cs : ℤ) := by
  rw [parseInt?]
  have hd : (String.mk ('+' :: cs)).data = '+' :: cs := rfl
  rw [hd]
  have hs : parseSign ('+' :: cs) = (false, cs) := by simp [parseSign]
  rw [hs, digitsVal?_of_digits _ hne h]
  simp

theorem takeWhile_digits_append (A B : List Char) (hA : ∀ c ∈ A, c.isDigit = true) :
    (A ++ '.' :: B).takeWhile Char.isDigit = A ∧
      (A ++ '.' :: B).dropWhile Char.isDigit = '.' :: B := by
  induction A with
  | nil =>
    constructor
    · rw [List.nil_append, List.takeWhile_cons, if_neg (by decide)]
    · rw [List.nil_append, List.dropWhile_cons, if_neg (by decide)]
  | cons a A ih =>
    have ha : a.isDigit = true := hA a (List.mem_cons_self a A)
    obtain ⟨ht, hd⟩ := ih (fun c hc => hA c (List.mem_cons_of_mem a hc))
    constructor
    · rw [List.cons_append, List.takeWhile_cons, if_pos ha, ht]
    · rw [List.cons_append, List.dropWhile_cons, if_pos ha, hd]

theorem parseFloat?_digits_dot (A B : List Char) (hAne : A ≠ [])
    (hA : ∀ c ∈ A, c.isDigit = true) (hB : ∀ c ∈ B, c.isDigit = true) :
    parseFloat? ⟨A ++ '.' :: B⟩ =
      some ((digitsValD A : ℚ) + (digitsValD B : ℚ) / 10 ^ B.length) := by
  obtain ⟨a, A2, rfl⟩ := List.exists_cons_of_ne_nil hAne
  have ha := hA a (List.mem_cons_self a A2)
  obtain ⟨ht, hd⟩ := takeWhile_digits_append (a :: A2) B hA
  rw [parseFloat?]
  have hdata : (String.mk ((a :: A2) ++ '.' :: B)).data = a :: (A2 ++ '.' :: B) := rfl
  rw [hdata]
  have hs : parseSign (a :: (A2 ++ '.' :: B)) = (false, a :: (A2 ++ '.' :: B)) :=
    parseSign_digit _ ha
  rw [hs]
  simp only []
  rw [show a :: (A2 ++ '.' :: B) = (a :: A2) ++ '.' :: B from rfl, ht, hd]
  have hall : allDigits B = true := List.all_eq_true.mpr hB
  simp [hall]

theorem parseFloat?_fmtF {x : ℚ} (w p : ℕ) (hp : 1 ≤ p) (hx : 0 ≤ x) :
    parseFloat? ⟨fmtF w p x⟩ = some (((round (x * 10 ^ p) : ℤ) : ℚ) / 10 ^ p) := by
  have hxp : (0 : ℚ) ≤ x * 10 ^ p := by positivity
  have hn : 0 ≤ round (x * 10 ^ p) := by
    rw [round_eq]
    exact Int.le_floor.mpr (by push_cast; linarith)
  have hppos : 0 < 10 ^ p := pow_pos (by norm_num : (0 : ℕ) < 10) p
  simp only [fmtF, fmtFInt]
  set n := round (x * 10 ^ p) with hndef
  rw [if_neg (not_lt.mpr hn)]
  set m := n.natAbs with hmdef
  rw [zpad, show ∀ k : ℕ, List.replicate k '0' ++
      (natChars (m / 10 ^ p) ++ '.' :: zpad p (natChars (m % 10 ^ p))) =
      (List.replicate k '0' ++ natChars (m / 10 ^ p)) ++ '.' :: zpad p (natChars (m % 10 ^ p))
    from fun k => (List.append_assoc _ _ _).symm]
  rw [parseFloat?_digits_dot _ _
    (fun hcontra => natChars_ne_nil (m / 10 ^ p) (List.append_eq_nil.mp hcontra).2)
    (fun c hc => by
      rw [List.mem_append] at hc
      rcases hc with hc | hc
      · rw [List.eq_of_mem_replicate hc]; rfl
      · exact natChars_all_digits _ c hc)
    (zpad_all_digits _ _ (natChars_all_digits _))]
  rw [digitsValD_zeros, digitsValD_natChars,
    zpad_length p _ (natChars_length_le hp (Nat.mod_lt m hppos)),
    zpad, digitsValD_zeros, digitsValD_natChars]
  congr 1
  have keyN : 10 ^ p * (m / 10 ^ p) + m % 10 ^ p = m := Nat.div_add_mod m (10 ^ p)
  have keyQ : ((10 : ℚ)) ^ p * ((m / 10 ^ p : ℕ) : ℚ) + ((m % 10 ^ p : ℕ) : ℚ) = (m : ℚ) := by
    exact_mod_cast keyN
  have hcast : ((n : ℤ) : ℚ) = ((m : ℕ) : ℚ) := by
    have hmn : (m : ℤ) = n := Int.natAbs_of_nonneg hn
    exact_mod_cast hmn.symm
  rw [hcast, ← keyQ]
  have h10 : ((10 : ℚ) ^ p) ≠ 0 := by positivity
  field_simp
  ring

theorem dropWhile_eq_self_of_not (f : Char → Bool) (cs : List Char)
    (h : ∀ c ∈ cs, f c = false) : cs.dropWhile f = cs := by
  cases cs with
  | nil => rfl
  | cons a l =>
    rw [List.dropWhile_cons, if_neg]
    simp [h a (List.mem_cons_self a l)]

theorem trimChars_eq_self (cs : List Char) (h : ∀ c ∈ cs, c.isWhitespace = false) :
    trimChars cs = cs := by
  rw [trimChars, dropWhile_eq_self_of_not _ _ h,
    dropWhile_eq_self_of_not _ _ (fun c hc => h c (List.mem_reverse.mp hc)),
    List.reverse_reverse]

theorem map_eq_self_of_fixed (f : Char → Char) (cs : List Char)
    (h : ∀ c ∈ cs, f c = c) : cs.map f = cs := by
  induction cs with
  | nil => rfl
  | cons a l ih =>
    rw [List.map_cons, h a (List.mem_cons_self a l),
      ih (fun c hc => h c (List.mem_cons_of_mem a hc))]

theorem splitWsGo_token (t : List Char) (ht : ∀ c ∈ t, c.isWhitespace = false) :
    ∀ cur cs, splitWsGo cur (t ++ cs) = splitWsGo (t.reverse ++ cur) cs := by
  induction t with
  | nil => intro cur cs; simp
  | cons a t ih =>
    intro cur cs
    have ha : a.isWhitespace = false := ht a (List.mem_cons_self a t)
    rw [List.cons_append, splitWsGo, if_neg (by simp [ha]),
      ih (fun c hc => ht c (List.mem_cons_of_mem a hc)) (a :: cur) cs]
    congr 1
    rw [List.reverse_cons, List.append_assoc]
    rfl

theorem splitWsGo_space (cur : List Char) (hcur : cur ≠ []) (cs : List Char) :
    splitWsGo cur (' ' :: cs) = cur.reverse :: splitWsGo [] cs := by
  rw [splitWsGo, if_pos (by decide), if_neg (by simp [hcur])]

theorem splitWsGo_end (cur : List Char) (hcur : cur ≠ []) :
    splitWsGo cur [] = [cur.reverse] := by
  rw [splitWsGo, if_neg (by simp [hcur])]

theorem splitWsGo_single (t : List Char) (hne : t ≠ [])
    (hw : ∀ c ∈ t, c.isWhitespace = false) : splitWsGo [] t = [t] := by
  have h := splitWsGo_token t hw [] []
  rw [List.append_nil, List.append_nil] at h
  rw [h, splitWsGo_end _ (by simp [hne]), List.reverse_reverse]

theorem splitWs_six (t1 t2 t3 t4 t5 t6 : List Char)
    (h1 : t1 ≠ []) (h2 : t2 ≠ []) (h3 : t3 ≠ []) (h4 : t4 ≠ []) (h5 : t5 ≠ [])
    (h6 : t6 ≠ [])
    (w1 : ∀ c ∈ t1, c.isWhitespace = false) (w2 : ∀ c ∈ t2, c.isWhitespace = false)
    (w3 : ∀ c ∈ t3, c.isWhitespace = false) (w4 : ∀ c ∈ t4, c.isWhitespace = false)
    (w5 : ∀ c ∈ t5, c.isWhitespace = false) (w6 : ∀ c ∈ t6, c.isWhitespace = false) :
    splitWs (t1 ++ ' ' :: (t2 ++ ' ' :: (t3 ++ ' ' :: (t4 ++ ' ' :: (t5 ++ ' ' :: t6))))) =
      [t1, t2, t3, t4, t5, t6] := by
  have r1 : t1.reverse ≠ [] := by simp [h1]
  have r2 : t2.reverse ≠ [] := by simp [h2]
  have r3 : t3.reverse ≠ [] := by simp [h3]
  have r4 : t4.reverse ≠ [] := by simp [h4]
  have r5 : t5.reverse ≠ [] := by simp [h5]
  have r6 : t6.reverse ≠ [] := by simp [h6]
  rw [splitWs, splitWsGo_token t1 w1, List.append_nil, splitWsGo_space _ r1,
    splitWsGo_token t2 w2, List.append_nil, splitWsGo_space _ r2,
    splitWsGo_token t3 w3, List.append_nil, splitWsGo_space _ r3,
    splitWsGo_token t4 w4, List.append_nil, splitWsGo_space _ r4,
    splitWsGo_token t5 w5, List.append_nil, splitWsGo_space _ r5,
    splitWsGo_single t6 h6 w6]
  simp

theorem tokenize_rendered (q1 q2 q3 q4 q5 q6 : List Char)
    (h1 : q1 ≠ []) (h2 : q2 ≠ []) (h3 : q3 ≠ []) (h4 : q4 ≠ []) (h5 : q5 ≠ [])
    (h6 : q6 ≠ [])
    (k1 : ∀ c ∈ q1, subSep c = c ∧ c.isWhitespace = false)
    (k2 : ∀ c ∈ q2, subSep c = c ∧ c.isWhitespace = false)
    (k3 : ∀ c ∈ q3, subSep c = c ∧ c.isWhitespace = false)
    (k4 : ∀ c ∈ q4, subSep c = c ∧ c.isWhitespace = false)
    (k5 : ∀ c ∈ q5, subSep c = c ∧ c.isWhitespace = false)
    (k6 : ∀ c ∈ q6, subSep c = c ∧ c.isWhitespace = false) :
    tokenize [⟨q1 ++ ':' :: (q2 ++ ':' :: q3)⟩, ⟨q4 ++ ':' :: (q5 ++ ':' :: q6)⟩] =
      [⟨q1⟩, ⟨q2⟩, ⟨q3⟩, ⟨q4⟩, ⟨q5⟩, ⟨q6⟩] := by
  have hcolon : (':' : Char).isWhitespace = false := by decide
  have mem_flat1 : ∀ c ∈ q1 ++ ':' :: (q2 ++ ':' :: q3), c.isWhitespace = false := by
    intro c hc
    simp only [List.mem_append, List.mem_cons] at hc
    rcases hc with hc | hc | hc | hc | hc
    · exact (k1 c hc).2
    · subst hc; exact hcolon
    · exact (k2 c hc).2
    · subst hc; exact hcolon
    · exact (k3 c hc).2
  have mem_flat2 : ∀ c ∈ q4 ++ ':' :: (q5 ++ ':' :: q6), c.isWhitespace = false := by
    intro c hc
    simp only [List.mem_append, List.mem_cons] at hc
    rcases hc with hc | hc | hc | hc | hc
    · exact (k4 c hc).2
    · subst hc; exact hcolon
    · exact (k5 c hc).2
    · subst hc; exact hcolon
    · exact (k6 c hc).2
  rw [tokenize]
  rw [show joinTokensChars [⟨q1 ++ ':' :: (q2 ++ ':' :: q3)⟩, ⟨q4 ++ ':' :: (q5 ++ ':' :: q6)⟩] =
      trimChars (q1 ++ ':' :: (q2 ++ ':' :: q3)) ++ ' ' ::
        trimChars (q4 ++ ':' :: (q5 ++ ':' :: q6)) from rfl]
  rw [trimChars_eq_self _ mem_flat1, trimChars_eq_self _ mem_flat2]
  have hm1 : (q1 ++ ':' :: (q2 ++ ':' :: q3)).map subSep = q1 ++ ' ' :: (q2 ++ ' ' :: q3) := by
    rw [List.map_append, List.map_cons, List.map_append, List.map_cons,
      map_eq_self_of_fixed _ _ (fun c hc => (k1 c hc).1),
      map_eq_self_of_fixed _ _ (fun c hc => (k2 c hc).1),
      map_eq_self_of_fixed _ _ (fun c hc => (k3 c hc).1)]
    rfl
  have hm2 : (q4 ++ ':' :: (q5 ++ ':' :: q6)).map subSep = q4 ++ ' ' :: (q5 ++ ' ' :: q6) := by
    rw [List.map_append, List.map_cons, List.map_append, List.map_cons,
      map_eq_self_of_fixed _ _ (fun c hc => (k4 c hc).1),
      map_eq_self_of_fixed _ _ (fun c hc => (k5 c hc).1),
      map_eq_self_of_fixed _ _ (fun c hc => (k6 c hc).1)]
    rfl
  rw [List.map_append, List.map_cons, hm1, hm2]
  have hsp : subSep ' ' = ' ' := rfl
  rw [hsp]
  have hassoc : (q1 ++ ' ' :: (q2 ++ ' ' :: q3)) ++ ' ' :: (q4 ++ ' ' :: (q5 ++ ' ' :: q6)) =
      q1 ++ ' ' :: (q2 ++ ' ' :: (q3 ++ ' ' :: (q4 ++ ' ' :: (q5 ++ ' ' :: q6)))) := by
    simp only [List.append_assoc, List.cons_append]
  rw [hassoc, splitWs_six q1 q2 q3 q4 q5 q6 h1 h2 h3 h4 h5 h6
    (fun c hc => (k1 c hc).2) (fun c hc => (k2 c hc).2) (fun c hc => (k3 c hc).2)
    (fun c hc => (k4 c hc).2) (fun c hc => (k5 c hc).2) (fun c hc => (k6 c hc).2)]
  rfl

theorem clean_of_digit {c : Char} (h : c.isDigit = true) :
    subSep c = c ∧ c.isWhitespace = false := by
  constructor
  · rw [subSep, if_neg]
    intro hm
    simp only [List.mem_cons, List.not_mem_nil, or_false] at hm
    rcases hm with rfl | rfl | rfl | rfl | rfl | rfl <;> exact absurd h (by decide)
  · by_contra hw
    simp only [Bool.not_eq_false] at hw
    simp only [Char.isWhitespace, Bool.or_eq_true, decide_eq_true_eq] at hw
    rcases hw with ((rfl | rfl) | rfl) | rfl <;> exact absurd h (by decide)

theorem fmtD_clean (w : ℕ) {n : ℤ} (hn : 0 ≤ n) :
    ∀ c ∈ fmtD w n, subSep c = c ∧ c.isWhitespace = false := by
  intro c hc
  rw [fmtD, if_neg (not_lt.mpr hn)] at hc
  exact clean_of_digit (zpad_all_digits _ _ (natChars_all_digits _) c hc)

theorem fmtD_ne_nil (w : ℕ) {n : ℤ} (hn : 0 ≤ n) : fmtD w n ≠ [] := by
  rw [fmtD, if_neg (not_lt.mpr hn)]
  exact zpad_ne_nil _ _ (natChars_ne_nil _)

theorem fmtF_clean (w p : ℕ) {x : ℚ} (hx : 0 ≤ x) :
    ∀ c ∈ fmtF w p x, subSep c = c ∧ c.isWhitespace = false := by
  have hn : 0 ≤ round (x * 10 ^ p) := by
    rw [round_eq]
    refine Int.le_floor.mpr ?_
    have : (0 : ℚ) ≤ x * 10 ^ p := by positivity
    push_cast
    linarith
  intro c hc
  simp only [fmtF, fmtFInt] at hc
  rw [if_neg (not_lt.mpr hn), zpad, List.mem_append] at hc
  rcases hc with hc | hc
  · rw [List.eq_of_mem_replicate hc]
    exact clean_of_digit (by decide)
  · rw [List.mem_append] at hc
    rcases hc with hc | hc
    · exact clean_of_digit (natChars_all_digits _ c hc)
    · rcases List.mem_cons.mp hc with rfl | hc
      · exact ⟨by decide, by decide⟩
      · exact clean_of_digit (zpad_all_digits _ _ (natChars_all_digits _) c hc)

theorem fmtF_ne_nil (w p : ℕ) {x : ℚ} (hx : 0 ≤ x) : fmtF w p x ≠ [] := by
  have hn : 0 ≤ round (x * 10 ^ p) := by
    rw [round_eq]
    refine Int.le_floor.mpr ?_
    have : (0 : ℚ) ≤ x * 10 ^ p := by positivity
    push_cast
    linarith
  simp only [fmtF, fmtFInt]
  rw [if_neg (not_lt.mpr hn)]
  intro hcontra
  exact natChars_ne_nil _ (List.append_eq_nil.mp (List.append_eq_nil.mp hcontra).2).1

theorem joinDelimChars_colon (a b c : List Char) :
    joinDelimChars [':'] [a, b, c] = a ++ ':' :: (b ++ ':' :: c) := by
  simp [joinDelimChars]

theorem parseFloat?_sixty_thousandths : parseFloat? "60.000" = some 60 := by
  simp +decide [parseFloat?, parseSign, digitsVal?, digitsValD, digitVal, allDigits]

theorem parseFloat?_zero_thousandths : parseFloat? "00.000" = some 0 := by
  simp +decide [parseFloat?, parseSign, digitsVal?, digitsValD, digitVal, allDigits]

theorem parseFloat?_sixty_hundredths : parseFloat? "60.00" = some 60 := by
  simp +decide [parseFloat?, parseSign, digitsVal?, digitsValD, digitVal, allDigits]

theorem parseFloat?_zero_hundredths : parseFloat? "00.00" = some 0 := by
  simp +decide [parseFloat?, parseSign, digitsVal?, digitsValD, digitVal, allDigits]

theorem ra_hms_reparse (e : Equatorial) (hdelim : e.delim = ":")
    (hh0 : 0 ≤ e.rah) (hh1 : e.rah ≤ 23) (hm0 : 0 ≤ e.ram) (hm1 : e.ram ≤ 59)
    (hs0 : 0 ≤ e.ras) (hs1 : e.ras < 60) :
    ∃ (u1 u2 u3 : List Char) (rah2 ram2 : ℤ) (ras2 : ℚ),
      (get_ra_hms e).data = u1 ++ ':' :: (u2 ++ ':' :: u3) ∧
      u1 ≠ [] ∧ u2 ≠ [] ∧ u3 ≠ [] ∧
      (∀ c ∈ u1, subSep c = c ∧ c.isWhitespace = false) ∧
      (∀ c ∈ u2, subSep c = c ∧ c.isWhitespace = false) ∧
      (∀ c ∈ u3, subSep c = c ∧ c.isWhitespace = false) ∧
      parseInt? ⟨u1⟩ = some rah2 ∧ parseInt? ⟨u2⟩ = some ram2 ∧
      parseFloat? ⟨u3⟩ = some ras2 ∧
      (|15 * ((rah2 : ℚ) + (ram2 : ℚ) / 60 + ras2 / 3600) -
          15 * ((e.rah : ℚ) + (e.ram : ℚ) / 60 + e.ras / 3600)| ≤ 1 / 1000 ∨
        |15 * ((rah2 : ℚ) + (ram2 : ℚ) / 60 + ras2 / 3600) -
          (15 * ((e.rah : ℚ) + (e.ram : ℚ) / 60 + e.ras / 3600) - 360)| ≤ 1 / 1000) := by
  by_cases hc1 : fmtF 6 3 e.ras = "60.000".data
  · -- seconds rolled over to 60.000
    have hn60000 : round (e.ras * 10 ^ 3) = 60000 := by
      have h1 : parseFloat? ⟨fmtF 6 3 e.ras⟩ = parseFloat? ⟨("60.000" : String).data⟩ := by
        rw [hc1]
      rw [parseFloat?_fmtF 6 3 (by norm_num) hs0,
        show (⟨("60.000" : String).data⟩ : String) = "60.000" from rfl,
        parseFloat?_sixty_thousandths] at h1
      have h2 : ((round (e.ras * 10 ^ 3) : ℤ) : ℚ) / 10 ^ 3 = 60 := Option.some.inj h1
      have h3 : ((round (e.ras * 10 ^ 3) : ℤ) : ℚ) = 60000 := by
        have hne : ((10 : ℚ) ^ 3) ≠ 0 := by norm_num
        field_simp at h2
        linarith
      exact_mod_cast h3
    have hras_lb : 60 - e.ras ≤ 1 / 2000 := by
      have h2 := abs_sub_round (e.ras * 10 ^ 3)
      rw [hn60000, abs_le] at h2
      obtain ⟨ha, hb⟩ := h2
      have ha2 : -(1 / 2 : ℚ) ≤ e.ras * 1000 - 60000 := by push_cast at ha; linarith
      linarith
    by_cases hram59 : e.ram = 59
    · by_cases hrah23 : e.rah = 23
      · -- full cascade to 00:00:00.000
        refine ⟨"00".data, "00".data, "00.000".data, 0, 0, 0, ?_, by decide, by decide,
          by decide, by decide, by decide, by decide, by decide, by decide, ?_, ?_⟩
        · simp only [get_ra_hms, hdelim, hram59, hrah23]
          rw [if_pos hc1, if_pos hc1, if_pos (by decide : fmtD 2 ((59 : ℤ) + 1) = "60".data),
            if_pos (by decide : fmtD 2 ((59 : ℤ) + 1) = "60".data),
            if_pos (by decide : fmtD 2 ((23 : ℤ) + 1) = "24".data)]
          exact joinDelimChars_colon _ _ _
        · rw [show (⟨("00.000" : String).data⟩ : String) = "00.000" from rfl]
          exact parseFloat?_zero_thousandths
        · right
          rw [hram59, hrah23]
          rw [abs_le]
          push_cast
          constructor <;> linarith
      · -- minutes rolled over, hour incremented but below 24
        have hne24 : fmtD 2 (e.rah + 1) ≠ "24".data := by
          intro heq
          have h1 : parseInt? ⟨fmtD 2 (e.rah + 1)⟩ = parseInt? ⟨("24" : String).data⟩ := by
            rw [heq]
          rw [parseInt?_fmtD_nonneg 2 (by omega),
            (by decide : parseInt? ⟨("24" : String).data⟩ = some 24)] at h1
          have : e.rah + 1 = (24 : ℤ) := Option.some.inj h1
          omega
        refine ⟨fmtD 2 (e.rah + 1), "00".data, "00.000".data, e.rah + 1, 0, 0, ?_,
          fmtD_ne_nil 2 (by omega), by decide, by decide, fmtD_clean 2 (by omega),
          by decide, by decide, parseInt?_fmtD_nonneg 2 (by omega), by decide, ?_, ?_⟩
        · simp only [get_ra_hms, hdelim, hram59]
          rw [if_pos hc1, if_pos hc1, if_pos (by decide : fmtD 2 ((59 : ℤ) + 1) = "60".data),
            if_pos (by decide : fmtD 2 ((59 : ℤ) + 1) = "60".data), if_neg hne24]
          exact joinDelimChars_colon _ _ _
        · rw [show (⟨("00.000" : String).data⟩ : String) = "00.000" from rfl]
          exact parseFloat?_zero_thousandths
        · left
          rw [hram59, abs_le]
          push_cast
          constructor <;> linarith
    · -- only seconds rolled over
      have hne60 : fmtD 2 (e.ram + 1) ≠ "60".data := by
        intro heq
        have h1 : parseInt? ⟨fmtD 2 (e.ram + 1)⟩ = parseInt? ⟨("60" : String).data⟩ := by
          rw [heq]
        rw [parseInt?_fmtD_nonneg 2 (by omega),
          (by decide : parseInt? ⟨("60" : String).data⟩ = some 60)] at h1
        have : e.ram + 1 = (60 : ℤ) := Option.some.inj h1
        omega
      have hne24 : fmtD 2 e.rah ≠ "24".data := by
        intro heq
        have h1 : parseInt? ⟨fmtD 2 e.rah⟩ = parseInt? ⟨("24" : String).data⟩ := by
          rw [heq]
        rw [parseInt?_fmtD_nonneg 2 hh0,
          (by decide : parseInt? ⟨("24" : String).data⟩ = some 24)] at h1
        have : e.rah = (24 : ℤ) := Option.some.inj h1
        omega
      refine ⟨fmtD 2 e.rah, fmtD 2 (e.ram + 1), "00.000".data, e.rah, e.ram + 1, 0, ?_,
        fmtD_ne_nil 2 hh0, fmtD_ne_nil 2 (by omega), by decide, fmtD_clean 2 hh0,
        fmtD_clean 2 (by omega), by decide, parseInt?_fmtD_nonneg 2 hh0,
        parseInt?_fmtD_nonneg 2 (by omega), ?_, ?_⟩
      · simp only [get_ra_hms, hdelim]
        rw [if_pos hc1, if_pos hc1, if_neg hne60, if_neg hne60, if_neg hne24]
        exact joinDelimChars_colon _ _ _
      · rw [show (⟨("00.000" : String).data⟩ : String) = "00.000" from rfl]
        exact parseFloat?_zero_thousandths
      · left
        rw [abs_le]
        push_cast
        constructor <;> linarith
  · -- no rollover
    have hne60 : fmtD 2 e.ram ≠ "60".data := by
      intro heq
      have h1 : parseInt? ⟨fmtD 2 e.ram⟩ = parseInt? ⟨("60" : String).data⟩ := by
        rw [heq]
      rw [parseInt?_fmtD_nonneg 2 hm0,
        (by decide : parseInt? ⟨("60" : String).data⟩ = some 60)] at h1
      have : e.ram = (60 : ℤ) := Option.some.inj h1
      omega
    have hne24 : fmtD 2 e.rah ≠ "24".data := by
      intro heq
      have h1 : parseInt? ⟨fmtD 2 e.rah⟩ = parseInt? ⟨("24" : String).data⟩ := by
        rw [heq]
      rw [parseInt?_fmtD_nonneg 2 hh0,
        (by decide : parseInt? ⟨("24" : String).data⟩ = some 24)] at h1
      have : e.rah = (24 : ℤ) := Option.some.inj h1
      omega
    have hround := abs_sub_round (e.ras * 10 ^ 3)
    refine ⟨fmtD 2 e.rah, fmtD 2 e.ram, fmtF 6 3 e.ras, e.rah, e.ram,
      ((round (e.ras * 10 ^ 3) : ℤ) : ℚ) / 10 ^ 3, ?_,
      fmtD_ne_nil 2 hh0, fmtD_ne_nil 2 hm0, fmtF_ne_nil 6 3 hs0, fmtD_clean 2 hh0,
      fmtD_clean 2 hm0, fmtF_clean 6 3 hs0, parseInt?_fmtD_nonneg 2 hh0,
      parseInt?_fmtD_nonneg 2 hm0, parseFloat?_fmtF 6 3 (by norm_num) hs0, ?_⟩
    · simp only [get_ra_hms, hdelim]
      rw [if_neg hc1, if_neg hc1, if_neg hne60, if_neg hne60, if_neg hne24]
      exact joinDelimChars_colon _ _ _
    · left
      rw [abs_le] at hround ⊢
      obtain ⟨ha, hb⟩ := hround
      have ha2 : -(1 / 2 : ℚ) ≤ e.ras * 1000 - ((round (e.ras * 10 ^ 3) : ℤ) : ℚ) := by
        norm_num at ha ⊢
        linarith
      have hb2 : e.ras * 1000 - ((round (e.ras * 10 ^ 3) : ℤ) : ℚ) ≤ 1 / 2 := by
        norm_num at hb ⊢
        linarith
      constructor <;> linarith

theorem parseInt?_neg_fmtD (w : ℕ) {n : ℤ} (hn : 0 ≤ n) :
    parseInt? ⟨'-' :: fmtD w n⟩ = some (-n) := by
  rw [fmtD, if_neg (not_lt.mpr hn), zpad,
    parseInt?_neg_digits _ (by simp [natChars_ne_nil n.natAbs])
      (fun c hc => by
        rw [List.mem_append] at hc
        rcases hc with hc | hc
        · rw [List.eq_of_mem_replicate hc]; rfl
        · exact natChars_all_digits n.natAbs c hc),
    digitsValD_zeros, digitsValD_natChars, Int.natAbs_of_nonneg hn]

theorem parseInt?_plus_fmtD (w : ℕ) {n : ℤ} (hn : 0 ≤ n) :
    parseInt? ⟨'+' :: fmtD w n⟩ = some n := by
  rw [fmtD, if_neg (not_lt.mpr hn), zpad,
    parseInt?_plus_digits _ (by simp [natChars_ne_nil n.natAbs])
      (fun c hc => by
        rw [List.mem_append] at hc
        rcases hc with hc | hc
        · rw [List.eq_of_mem_replicate hc]; rfl
        · exact natChars_all_digits n.natAbs c hc),
    digitsValD_zeros, digitsValD_natChars, Int.natAbs_of_nonneg hn]

theorem dec_dms_components (e : Equatorial) (hdelim : e.delim = ":")
    (hd0 : 0 ≤ e.decd) (hm0 : 0 ≤ e.decm) (hm1 : e.decm ≤ 59)
    (hs0 : 0 ≤ e.decs) (hs1 : e.decs < 60) :
    ∃ (sd sm ss : List Char) (K decm2 : ℤ) (decs2 : ℚ),
      (get_dec_dms e).data = e.decsign.data ++ (sd ++ ':' :: (sm ++ ':' :: ss)) ∧
      sd = fmtD 2 K ∧ 0 ≤ K ∧
      sm ≠ [] ∧ ss ≠ [] ∧
      (∀ c ∈ sm, subSep c = c ∧ c.isWhitespace = false) ∧
      (∀ c ∈ ss, subSep c = c ∧ c.isWhitespace = false) ∧
      parseInt? ⟨sm⟩ = some decm2 ∧ parseFloat? ⟨ss⟩ = some decs2 ∧
      |((K : ℚ) + (decm2 : ℚ) / 60 + decs2 / 3600) -
        ((e.decd : ℚ) + (e.decm : ℚ) / 60 + e.decs / 3600)| ≤ 1 / 1000 := by
  by_cases hc1 : fmtF 5 2 e.decs = "60.00".data
  · have hn6000 : round (e.decs * 10 ^ 2) = 6000 := by
      have h1 : parseFloat? ⟨fmtF 5 2 e.decs⟩ = parseFloat? ⟨("60.00" : String).data⟩ := by
        rw [hc1]
      rw [parseFloat?_fmtF 5 2 (by norm_num) hs0,
        show (⟨("60.00" : String).data⟩ : String) = "60.00" from rfl,
        parseFloat?_sixty_hundredths] at h1
      have h2 : ((round (e.decs * 10 ^ 2) : ℤ) : ℚ) / 10 ^ 2 = 60 := Option.some.inj h1
      have h3 : ((round (e.decs * 10 ^ 2) : ℤ) : ℚ) = 6000 := by
        have hne : ((10 : ℚ) ^ 2) ≠ 0 := by norm_num
        field_simp at h2
        linarith
      exact_mod_cast h3
    have hdecs_lb : 60 - e.decs ≤ 1 / 200 := by
      have h2 := abs_sub_round (e.decs * 10 ^ 2)
      rw [hn6000, abs_le] at h2
      obtain ⟨ha, hb⟩ := h2
      have ha2 : -(1 / 2 : ℚ) ≤ e.decs * 100 - 6000 := by norm_num at ha ⊢; linarith
      linarith
    by_cases hdm59 : e.decm = 59
    · -- minutes roll over into the degrees
      refine ⟨fmtD 2 (e.decd + 1), "00".data, "00.00".data, e.decd + 1, 0, 0, ?_, rfl,
        by omega, by decide, by decide, by decide, by decide, by decide, ?_, ?_⟩
      · simp only [get_dec_dms, hdelim, hdm59]
        rw [if_pos hc1, if_pos hc1, if_pos (by decide : fmtD 2 ((59 : ℤ) + 1) = "60".data),
          if_pos (by decide : fmtD 2 ((59 : ℤ) + 1) = "60".data)]
        congr 1
        exact joinDelimChars_colon _ _ _
      · rw [show (⟨("00.00" : String).data⟩ : String) = "00.00" from rfl]
        exact parseFloat?_zero_hundredths
      · rw [hdm59, abs_le]
        push_cast
        constructor <;> linarith
    · -- only seconds roll over
      have hne60 : fmtD 2 (e.decm + 1) ≠ "60".data := by
        intro heq
        have h1 : parseInt? ⟨fmtD 2 (e.decm + 1)⟩ = parseInt? ⟨("60" : String).data⟩ := by
          rw [heq]
        rw [parseInt?_fmtD_nonneg 2 (by omega),
          (by decide : parseInt? ⟨("60" : String).data⟩ = some 60)] at h1
        have : e.decm + 1 = (60 : ℤ) := Option.some.inj h1
        omega
      refine ⟨fmtD 2 e.decd, fmtD 2 (e.decm + 1), "00.00".data, e.decd, e.decm + 1, 0, ?_,
        rfl, hd0, fmtD_ne_nil 2 (by omega), by decide, fmtD_clean 2 (by omega), by decide,
        parseInt?_fmtD_nonneg 2 (by omega), ?_, ?_⟩
      · simp only [get_dec_dms, hdelim]
        rw [if_pos hc1, if_pos hc1, if_neg hne60, if_neg hne60]
        congr 1
        exact joinDelimChars_colon _ _ _
      · rw [show (⟨("00.00" : String).data⟩ : String) = "00.00" from rfl]
        exact parseFloat?_zero_hundredths
      · rw [abs_le]
        push_cast
        constructor <;> linarith
  · -- no rollover
    have hne60 : fmtD 2 e.decm ≠ "60".data := by
      intro heq
      have h1 : parseInt? ⟨fmtD 2 e.decm⟩ = parseInt? ⟨("60" : String).data⟩ := by
        rw [heq]
      rw [parseInt?_fmtD_nonneg 2 hm0,
        (by decide : parseInt? ⟨("60" : String).data⟩ = some 60)] at h1
      have : e.decm = (60 : ℤ) := Option.some.inj h1
      omega
    have hround := abs_sub_round (e.decs * 10 ^ 2)
    refine ⟨fmtD 2 e.decd, fmtD 2 e.decm, fmtF 5 2 e.decs, e.decd, e.decm,
      ((round (e.decs * 10 ^ 2) : ℤ) : ℚ) / 10 ^ 2, ?_, rfl, hd0, fmtD_ne_nil 2 hm0,
      fmtF_ne_nil 5 2 hs0, fmtD_clean 2 hm0, fmtF_clean 5 2 hs0,
      parseInt?_fmtD_nonneg 2 hm0, parseFloat?_fmtF 5 2 (by norm_num) hs0, ?_⟩
    · simp only [get_dec_dms, hdelim]
      rw [if_neg hc1, if_neg hc1, if_neg hne60, if_neg hne60]
      congr 1
      exact joinDelimChars_colon _ _ _
    · rw [abs_le] at hround ⊢
      obtain ⟨ha, hb⟩ := hround
      have ha2 : -(1 / 2 : ℚ) ≤ e.decs * 100 - ((round (e.decs * 10 ^ 2) : ℤ) : ℚ) := by
        norm_num at ha ⊢
        linarith
      have hb2 : e.decs * 100 - ((round (e.decs * 10 ^ 2) : ℤ) : ℚ) ≤ 1 / 2 := by
        norm_num at hb ⊢
        linarith
      constructor <;> linarith

theorem dec_dms_reparse (e : Equatorial) (hdelim : e.delim = ":")
    (hd0 : 0 ≤ e.decd) (hm0 : 0 ≤ e.decm) (hm1 : e.decm ≤ 59)
    (hs0 : 0 ≤ e.decs) (hs1 : e.decs < 60)
    (hsign : e.decsign = "-" ∨ e.decsign = "+") :
    ∃ (w1 v2 v3 : List Char) (neg : Bool) (d3 decm2 : ℤ) (decs2 : ℚ),
      (get_dec_dms e).data = w1 ++ ':' :: (v2 ++ ':' :: v3) ∧
      w1 ≠ [] ∧ v2 ≠ [] ∧ v3 ≠ [] ∧
      (∀ c ∈ w1, subSep c = c ∧ c.isWhitespace = false) ∧
      (∀ c ∈ v2, subSep c = c ∧ c.isWhitespace = false) ∧
      (∀ c ∈ v3, subSep c = c ∧ c.isWhitespace = false) ∧
      parseInt? ⟨w1⟩ = some d3 ∧ startsWithNeg ⟨w1⟩ = neg ∧
      parseInt? ⟨v2⟩ = some decm2 ∧ parseFloat? ⟨v3⟩ = some decs2 ∧
      |(if neg then -(|((|d3| : ℤ) : ℚ)| + (decm2 : ℚ) / 60 + decs2 / 3600)
          else |((|d3| : ℤ) : ℚ)| + (decm2 : ℚ) / 60 + decs2 / 3600) -
        (if e.decsign = "-" then -((e.decd : ℚ) + (e.decm : ℚ) / 60 + e.decs / 3600)
          else (e.decd : ℚ) + (e.decm : ℚ) / 60 + e.decs / 3600)| ≤ 1 / 1000 := by
  obtain ⟨sd, sm, ss, K, decm2, decs2, hshape, hsd, hK, hsm_ne, hss_ne, hsm_cl, hss_cl,
    hsm_p, hss_p, hbound⟩ := dec_dms_components e hdelim hd0 hm0 hm1 hs0 hs1
  have hKc : (0 : ℚ) ≤ (K : ℚ) := by exact_mod_cast hK
  rcases hsign with hsgn | hsgn
  · refine ⟨'-' :: sd, sm, ss, true, -K, decm2, decs2, ?_, by simp, hsm_ne, hss_ne, ?_,
      hsm_cl, hss_cl, ?_, rfl, hsm_p, hss_p, ?_⟩
    · rw [hshape, hsgn]
      rfl
    · intro c hc
      rcases List.mem_cons.mp hc with rfl | hc
      · exact ⟨by decide, by decide⟩
      · rw [hsd] at hc
        exact fmtD_clean 2 hK c hc
    · rw [hsd]
      exact parseInt?_neg_fmtD 2 hK
    · rw [hsgn, if_pos rfl, if_pos rfl]
      have habs : ((|(-K)| : ℤ) : ℚ) = (K : ℚ) := by
        rw [abs_neg, abs_of_nonneg hK]
      rw [habs, abs_of_nonneg hKc,
        show -((K : ℚ) + (decm2 : ℚ) / 60 + decs2 / 3600) -
            -((e.decd : ℚ) + (e.decm : ℚ) / 60 + e.decs / 3600) =
          -(((K : ℚ) + (decm2 : ℚ) / 60 + decs2 / 3600) -
            ((e.decd : ℚ) + (e.decm : ℚ) / 60 + e.decs / 3600)) from by ring,
        abs_neg]
      exact hbound
  · refine ⟨'+' :: sd, sm, ss, false, K, decm2, decs2, ?_, by simp, hsm_ne, hss_ne, ?_,
      hsm_cl, hss_cl, ?_, rfl, hsm_p, hss_p, ?_⟩
    · rw [hshape, hsgn]
      rfl
    · intro c hc
      rcases List.mem_cons.mp hc with rfl | hc
      · exact ⟨by decide, by decide⟩
      · rw [hsd] at hc
        exact fmtD_clean 2 hK c hc
    · rw [hsd]
      exact parseInt?_plus_fmtD 2 hK
    · rw [hsgn, if_neg (by decide : ¬(false = true)), if_neg (by decide : ¬("+" = "-"))]
      have habs : ((|K| : ℤ) : ℚ) = (K : ℚ) := by
        rw [abs_of_nonneg hK]
      rw [habs, abs_of_nonneg hKc]
      exact hbound

/-- C2 (amended): constructing from the decimal pair `(ra, dec)` with
`ra` in `[0, 360)`, rendering `ra_hms` and `dec_dms`, and constructing a
second object from the two rendered strings succeeds and reproduces `dec`
within `1e-3` degrees and `ra` within `1e-3` degrees up to a possible
360-degree wrap: when the hour rollover fires the re-parsed `ra` is offset
by exactly 360 (the rendered string wraps hour 24 to 00). -/
theorem c2_roundtrip_amended (ra dec : ℚ) (h0 : 0 ≤ ra) (h1 : ra < 360) :
    ∃ e2 : Equatorial, reparse (initFromPair ra dec) = .ok e2 ∧
      |e2.dec - dec| ≤ 1 / 1000 ∧
      (|e2.ra - ra| ≤ 1 / 1000 ∨ |e2.ra - (ra - 360)| ≤ 1 / 1000) := by
  have hfl : ⌊ra / 360⌋ = 0 := by
    rw [Int.floor_eq_zero_iff]
    constructor
    · exact div_nonneg h0 (by norm_num)
    · exact (div_lt_one (by norm_num)).mpr h1
  have hnra : ra - (⌊ra / 360⌋ : ℚ) * 360 = ra := by
    rw [hfl]
    push_cast
    ring
  have hx : 0 ≤ ra / 15 := div_nonneg h0 (by norm_num)
  obtain ⟨hrh0, hrm0, hrm1, hrs0, hrs1, hrrec⟩ := sexa_floor_bounds (ra / 15) hx
  obtain ⟨hdd0, hdm0, hdm1, hds0, hds1, hdrec⟩ := sexa_floor_bounds |dec| (abs_nonneg dec)
  have herah : (initFromPair ra dec).rah = ⌊ra / 15⌋ := by
    rw [initFromPair_rah, hnra]
  have heram : (initFromPair ra dec).ram =
      ⌊(ra / 15 - ((⌊ra / 15⌋ : ℤ) : ℚ)) * 60⌋ := by
    rw [initFromPair_ram, hnra]
  have heras : (initFromPair ra dec).ras =
      (ra / 15 - ((⌊ra / 15⌋ : ℤ) : ℚ) -
        ((⌊(ra / 15 - ((⌊ra / 15⌋ : ℤ) : ℚ)) * 60⌋ : ℤ) : ℚ) / 60) * 60 * 60 := by
    rw [initFromPair_ras, hnra]
  have hdelim : (initFromPair ra dec).delim = ":" := initFromPair_delim ra dec
  have hh0 : 0 ≤ (initFromPair ra dec).rah := by rw [herah]; exact hrh0
  have hh1 : (initFromPair ra dec).rah ≤ 23 := by
    rw [herah]
    have h24 : ⌊ra / 15⌋ < 24 := Int.floor_lt.mpr (by push_cast; linarith)
    omega
  have hm0 : 0 ≤ (initFromPair ra dec).ram := by rw [heram]; exact hrm0
  have hm1 : (initFromPair ra dec).ram ≤ 59 := by rw [heram]; exact hrm1
  have hs0 : 0 ≤ (initFromPair ra dec).ras := by rw [heras]; exact hrs0
  have hs1 : (initFromPair ra dec).ras < 60 := by rw [heras]; exact hrs1
  have hedecd : (initFromPair ra dec).decd = ⌊|dec|⌋ := initFromPair_decd ra dec
  have hedecm : (initFromPair ra dec).decm = ⌊(|dec| - ((⌊|dec|⌋ : ℤ) : ℚ)) * 60⌋ :=
    initFromPair_decm ra dec
  have hedecs : (initFromPair ra dec).decs =
      (|dec| - ((⌊|dec|⌋ : ℤ) : ℚ) -
        ((⌊(|dec| - ((⌊|dec|⌋ : ℤ) : ℚ)) * 60⌋ : ℤ) : ℚ) / 60) * 60 * 60 :=
    initFromPair_decs ra dec
  have hd0 : 0 ≤ (initFromPair ra dec).decd := by rw [hedecd]; exact hdd0
  have hdm0' : 0 ≤ (initFromPair ra dec).decm := by rw [hedecm]; exact hdm0
  have hdm1' : (initFromPair ra dec).decm ≤ 59 := by rw [hedecm]; exact hdm1
  have hds0' : 0 ≤ (initFromPair ra dec).decs := by rw [hedecs]; exact hds0
  have hds1' : (initFromPair ra dec).decs < 60 := by rw [hedecs]; exact hds1
  have hsign : (initFromPair ra dec).decsign = "-" ∨ (initFromPair ra dec).decsign = "+" := by
    rw [initFromPair_decsign]
    by_cases h : dec < 0
    · left; rw [if_pos h]
    · right; rw [if_neg h]
  have hR : 15 * (((initFromPair ra dec).rah : ℚ) + ((initFromPair ra dec).ram : ℚ) / 60 +
      (initFromPair ra dec).ras / 3600) = ra := by
    rw [herah, heram, heras]
    linarith [hrrec]
  have hM : ((initFromPair ra dec).decd : ℚ) + ((initFromPair ra dec).decm : ℚ) / 60 +
      (initFromPair ra dec).decs / 3600 = |dec| := by
    rw [hedecd, hedecm, hedecs]
    linarith [hdrec]
  have hdec_eq : (if (initFromPair ra dec).decsign = "-" then
      -(((initFromPair ra dec).decd : ℚ) + ((initFromPair ra dec).decm : ℚ) / 60 +
        (initFromPair ra dec).decs / 3600)
      else ((initFromPair ra dec).decd : ℚ) + ((initFromPair ra dec).decm : ℚ) / 60 +
        (initFromPair ra dec).decs / 3600) = dec := by
    rw [initFromPair_decsign]
    by_cases h : dec < 0
    · rw [if_pos h, if_pos rfl, hM, abs_of_neg h]
      ring
    · rw [if_neg h, if_neg (by decide : ¬("+" = "-")), hM, abs_of_nonneg (not_lt.mp h)]
  obtain ⟨u1, u2, u3, rah2, ram2, ras2, hu_shape, hu1ne, hu2ne, hu3ne, hu1cl, hu2cl, hu3cl,
    hu1p, hu2p, hu3p, hra_bound⟩ :=
    ra_hms_reparse (initFromPair ra dec) hdelim hh0 hh1 hm0 hm1 hs0 hs1
  obtain ⟨w1, v2, v3, neg, d3, decm2, decs2, hw_shape, hw1ne, hv2ne, hv3ne, hw1cl, hv2cl,
    hv3cl, hw1p, hw1neg, hv2p, hv3p, hdec_bound⟩ :=
    dec_dms_reparse (initFromPair ra dec) hdelim hd0 hdm0' hdm1' hds0' hds1' hsign
  have hs1' : get_ra_hms (initFromPair ra dec) = ⟨u1 ++ ':' :: (u2 ++ ':' :: u3)⟩ := by
    rw [← hu_shape]
  have hs2' : get_dec_dms (initFromPair ra dec) = ⟨w1 ++ ':' :: (v2 ++ ':' :: v3)⟩ := by
    rw [← hw_shape]
  have htok : tokenize [get_ra_hms (initFromPair ra dec), get_dec_dms (initFromPair ra dec)] =
      [⟨u1⟩, ⟨u2⟩, ⟨u3⟩, ⟨w1⟩, ⟨v2⟩, ⟨v3⟩] := by
    rw [hs1', hs2']
    exact tokenize_rendered u1 u2 u3 w1 v2 v3 hu1ne hu2ne hu3ne hw1ne hv2ne hv3ne
      hu1cl hu2cl hu3cl hw1cl hv2cl hv3cl
  refine ⟨initFromSix rah2 ram2 ras2 neg d3 decm2 decs2, ?_, ?_, ?_⟩
  · rw [reparse, equatorialCoordinate, htok,
      equatorialOfTokens_six _ _ _ _ _ _ rah2 ram2 ras2 d3 decm2 decs2 hu1p hu2p hu3p
        hw1p hv2p hv3p, hw1neg]
  · rw [initFromSix_dec]
    calc |(if neg then -(|((|d3| : ℤ) : ℚ)| + (decm2 : ℚ) / 60 + decs2 / 3600)
            else |((|d3| : ℤ) : ℚ)| + (decm2 : ℚ) / 60 + decs2 / 3600) - dec| =
        |(if neg then -(|((|d3| : ℤ) : ℚ)| + (decm2 : ℚ) / 60 + decs2 / 3600)
            else |((|d3| : ℤ) : ℚ)| + (decm2 : ℚ) / 60 + decs2 / 3600) -
          (if (initFromPair ra dec).decsign = "-" then
            -(((initFromPair ra dec).decd : ℚ) + ((initFromPair ra dec).decm : ℚ) / 60 +
              (initFromPair ra dec).decs / 3600)
            else ((initFromPair ra dec).decd : ℚ) + ((initFromPair ra dec).decm : ℚ) / 60 +
              (initFromPair ra dec).decs / 3600)| := by rw [hdec_eq]
      _ ≤ 1 / 1000 := hdec_bound
  · rw [initFromSix_ra]
    rcases hra_bound with h | h
    · left
      rw [hR] at h
      exact h
    · right
      rw [hR] at h
      exact h

/-- Counterexample to C2 as stated: at
`ra = 15*(23 + 59/60 + 59.9999/3600)` (inside `[0, 360)`) the rendered
`ra_hms` is `00:00:00.000`, so the re-parsed `ra` is `0`, which is not
within `1e-3` degrees of the original. -/
theorem c2_counterexample :
    (reparse (initFromPair (15 * (23 + 59 / 60 + (599999 / 10000) / 3600)) 0)).toOption.map
        Equatorial.ra = some 0 ∧
      ¬(|(0 : ℚ) - 15 * (23 + 59 / 60 + (599999 / 10000) / 3600)| ≤ 1 / 1000) := by
  constructor
  · have hrah : (initFromPair (15 * (23 + 59 / 60 + (599999 / 10000) / 3600)) 0).rah = 23 := by
      rw [initFromPair_rah]; norm_num
    have hram : (initFromPair (15 * (23 + 59 / 60 + (599999 / 10000) / 3600)) 0).ram = 59 := by
      rw [initFromPair_ram]; norm_num
    have hras : (initFromPair (15 * (23 + 59 / 60 + (599999 / 10000) / 3600)) 0).ras =
        599999 / 10000 := by
      rw [initFromPair_ras]; norm_num
    have hf : fmtF 6 3 (599999 / 10000 : ℚ) = "60.000".data := by
      rw [fmtF, show round ((599999 / 10000 : ℚ) * 10 ^ 3) = 60000 by rw [round_eq]; norm_num]
      decide
    have hra_str : get_ra_hms (initFromPair (15 * (23 + 59 / 60 + (599999 / 10000) / 3600)) 0) =
        "00:00:00.000" := by
      simp only [get_ra_hms, hras, hram, hrah, initFromPair_delim, hf]
      decide
    have hdecd : (initFromPair (15 * (23 + 59 / 60 + (599999 / 10000) / 3600)) 0).decd = 0 := by
      rw [initFromPair_decd]; norm_num
    have hdecm : (initFromPair (15 * (23 + 59 / 60 + (599999 / 10000) / 3600)) 0).decm = 0 := by
      rw [initFromPair_decm]; norm_num
    have hdecs : (initFromPair (15 * (23 + 59 / 60 + (599999 / 10000) / 3600)) 0).decs = 0 := by
      rw [initFromPair_decs]; norm_num
    have hdsgn : (initFromPair (15 * (23 + 59 / 60 + (599999 / 10000) / 3600)) 0).decsign =
        "+" := by
      rw [initFromPair_decsign]; norm_num
    have hf2 : fmtF 5 2 (0 : ℚ) = "00.00".data := by
      rw [fmtF, show round ((0 : ℚ) * 10 ^ 2) = 0 by rw [round_eq]; norm_num]
      decide
    have hdec_str : get_dec_dms (initFromPair (15 * (23 + 59 / 60 + (599999 / 10000) / 3600)) 0) =
        "+00:00:00.00" := by
      simp only [get_dec_dms, hdecs, hdecm, hdecd, hdsgn, initFromPair_delim, hf2]
      decide
    rw [reparse, hra_str, hdec_str, equatorialCoordinate,
      show tokenize ["00:00:00.000", "+00:00:00.00"] =
        ["00", "00", "00.000", "+00", "00", "00.00"] from by decide,
      equatorialOfTokens_six "00" "00" "00.000" "+00" "00" "00.00" 0 0 0 0 0 0 (by decide)
        (by decide) parseFloat?_zero_thousandths (by decide) (by decide)
        parseFloat?_zero_hundredths,
      show startsWithNeg "+00" = false from by decide]
    simp only [Except.toOption, Option.map, initFromSix_ra]
    norm_num
  · intro hcontra
    rw [abs_sub_comm, abs_of_nonneg
      (by norm_num : (0 : ℚ) ≤ 15 * (23 + 59 / 60 + (599999 / 10000) / 3600) - 0)] at hcontra
    norm_num at hcontra

/-- Witness for C2 (amended) at `ra = 0`, `dec = 0`. -/
theorem c2_roundtrip_amended_witness :
    ((0 : ℚ) ≤ 0 ∧ (0 : ℚ) < 360) ∧
      ∃ e2 : Equatorial, reparse (initFromPair 0 0) = .ok e2 ∧
        |e2.dec - 0| ≤ 1 / 1000 ∧
        (|e2.ra - 0| ≤ 1 / 1000 ∨ |e2.ra - (0 - 360)| ≤ 1 / 1000) :=
  ⟨⟨le_refl 0, by norm_num⟩, c2_roundtrip_amended 0 0 (le_refl 0) (by norm_num)⟩
